import Mathlib

/-!
Verification of the statsig-io/migrations translation engine.

This file gives a shallow embedding, in Lean 4, of the pure translation and
ordering logic of the LaunchDarkly-to-Statsig migration tool:

* src/src/launchdarkly.ts   (second revision in the file): clause, rule,
  fallthrough, prerequisite, flag and segment transformers;
* src/src/util.ts           (second revision): capRuleName;
* src/unnamed/part_001      : sortConfigsFromDependentToIndependent;
* src/src/import.ts         (second revision): reorderGatesByDependencies and
  deleteExistingImportedConfigs.

JavaScript numbers are modelled as rationals, JSON values as an inductive
type, records as association lists, and JS Maps as association lists where
the last binding wins.  A thrown JS exception is modelled by the dedicated
result constructor TRes.crash (or by Option.none for Option-valued loops);
expected failures are modelled by TRes.errs, mirroring the discriminated
TransformResult type of src/src/types.ts.  I/O (fetch, throttling, API keys)
is outside the embedding: every function modelled here is pure in the source.
-/

set_option maxRecDepth 100000

/-- JSON values, used for LaunchDarkly variation values and clause values. -/
inductive JSON where
  | null
  | bool (b : Bool)
  | num (q : ℚ)
  | str (s : String)
  | arr (elems : List JSON)
  | obj (fields : List (String × JSON))

/-- JS truthiness of a JSON value (NaN aside, which ℚ cannot represent). -/
def jsTruthy : JSON → Bool
  | .null => false
  | .bool b => b
  | .num q => q != 0
  | .str s => s != ""
  | .arr _ => true
  | .obj _ => true

/-- JS Number.prototype.toString for integral values; the non-integral
fallback is only a placeholder (no modelled code path reaches it: the
transformers only stringify integral or non-numeric primitives). -/
def jsNumToString (q : ℚ) : String :=
  if q.den = 1 then toString q.num else toString q.num ++ "/" ++ toString q.den

/-- JS String(v) / v.toString() on primitive JSON values.  The array and
object cases are unreachable in the modelled code (they sit behind the
isArrayOfPrimitives guard) and are given placeholder values. -/
def jsToString : JSON → String
  | .str s => s
  | .bool b => if b then "true" else "false"
  | .num q => jsNumToString q
  | .null => "null"
  | .arr _ => ""
  | .obj _ => ""

/-- JSON.stringify on the values reachable in transformClauseValuesForOperator
(only booleans are actually reachable there: the branch runs on primitives
that are neither strings nor numbers). -/
def jsonStringify : JSON → String
  | .bool b => if b then "true" else "false"
  | .null => "null"
  | .num q => jsNumToString q
  | .str s => "\"" ++ s ++ "\""
  | .arr _ => ""
  | .obj _ => ""

/-- Lookup in a JS plain object modelled as an association list. -/
def recordGet (m : List (String × α)) (k : String) : Option α :=
  (m.find? (fun e => e.1 == k)).map (fun e => e.2)

/-- Lookup in a JS Map built with new Map(entries): the last binding wins. -/
def jsMapGet (m : List (String × α)) (k : String) : Option α :=
  (m.reverse.find? (fun e => e.1 == k)).map (fun e => e.2)

/-- JS falsiness of an optional string (undefined or the empty string). -/
def jsFalsyOptStr : Option String → Bool
  | none => true
  | some s => s == ""

-- ---------------------------------------------------------------------------
-- LaunchDarkly source data model (launchdarkly.ts, type LaunchDarklyFlag etc.)
-- ---------------------------------------------------------------------------

structure LDRolloutVariation where
  variation : Nat
  weight : ℚ
deriving DecidableEq

structure LDRollout where
  variations : List LDRolloutVariation
deriving DecidableEq

/-- A clause of a LaunchDarkly targeting rule.  The source field name is
attribute, renamed attr here because attribute is a Lean keyword. -/
structure LDClause where
  attr : String
  contextKind : Option String
  op : String
  values : List JSON
  negate : Bool

structure LDRule where
  description : Option String
  clauses : List LDClause
  variation : Option Nat
  rollout : Option LDRollout

/-- The selector part shared by rules and fallthroughs; the source passes
either a LaunchDarklyFlagRule or a LaunchDarklyFlagFallthrough to
transformRulePassPercentage / transformRuleVariantPercentages, which read
only these two fields. -/
structure LDFallthrough where
  variation : Option Nat
  rollout : Option LDRollout
deriving DecidableEq

def LDRule.selector (r : LDRule) : LDFallthrough :=
  { variation := r.variation, rollout := r.rollout }

structure LDTarget where
  values : List String
  variation : Nat
  contextKind : Option String
deriving DecidableEq

structure LDPrerequisite where
  key : String
  variation : Nat
deriving DecidableEq

structure LDFlagEnvironment where
  «on» : Bool
  targets : Option (List LDTarget)
  contextTargets : Option (List LDTarget)
  offVariation : Option Nat
  rules : Option (List LDRule)
  fallthrough : Option LDFallthrough
  prerequisites : Option (List LDPrerequisite)

structure LDVariation where
  name : String
  value : JSON

structure LaunchDarklyFlag where
  kind : String
  key : String
  name : String
  description : String
  temporary : Bool
  tags : List String
  variations : List LDVariation
  environments : Option (List (String × LDFlagEnvironment))

structure LDSegmentContext where
  contextKind : Option String
  values : Option (List String)

structure LaunchDarklySegment where
  key : String
  name : String
  description : Option String
  rules : List LDRule
  deleted : Bool
  included : Option (List String)
  excluded : Option (List String)
  includedContexts : Option (List LDSegmentContext)
  excludedContexts : Option (List LDSegmentContext)
  unbounded : Bool

-- ---------------------------------------------------------------------------
-- Statsig target data model (types.ts)
-- ---------------------------------------------------------------------------

inductive StatsigConditionType where
  | app_version | browser_name | browser_version | country | custom_field
  | email | environment_tier | fails_gate | fails_segment | ip_address
  | locale | os_name | os_version | passes_gate | passes_segment | public
  | time | unit_id | user_id | device_model | target_app
deriving DecidableEq

inductive StatsigOperatorType where
  | any | none | any_case_sensitive | none_case_sensitive
  | str_contains_any | str_contains_none | gt | lt | lte | gte
  | version_gt | version_lt | version_gte | version_lte | version_eq
  | after | before | «on» | is_null | is_not_null | str_matches | encoded_any
  | array_contains_any | array_contains_none | array_contains_all
  | not_array_contains_all
deriving DecidableEq

/-- targetValue of a StatsigCondition: number, string, or a list of scalars
(the source type is number | string | number[] | string[], built from the
uniformly-typed clause value list). -/
inductive TargetValue where
  | str (s : String)
  | num (q : ℚ)
  | list (values : List JSON)

structure StatsigCondition where
  type : StatsigConditionType
  customID : Option String := none
  field : Option String := none
  operator : Option StatsigOperatorType := none
  targetValue : Option TargetValue := none

structure StatsigVariant where
  name : String
  passPercentage : ℚ
  returnValue : JSON

/-- A Statsig rule.  StatsigDynamicConfigRule extends StatsigRule in the
source with optional returnValue and variants fields; since TypeScript is
structural the two are modelled as one record with all optional fields. -/
structure StatsigRule where
  name : String
  passPercentage : Option ℚ := none
  conditions : List StatsigCondition
  environments : Option (List String) := none
  returnValue : Option JSON := none
  variants : Option (List StatsigVariant) := none

structure StatsigGate where
  id : String
  name : String
  description : Option String := none
  tags : Option (List String) := none
  type : Option String := none
  rules : List StatsigRule

structure StatsigDynamicConfig where
  id : String
  name : String
  description : Option String := none
  tags : Option (List String) := none
  rules : List StatsigRule

structure StatsigSegment where
  id : String
  name : String
  description : Option String := none
  type : String
  idType : Option String := none
  tags : Option (List String) := none
  rules : List StatsigRule

structure StatsigOverride where
  environment : Option String
  unitID : String
  passingIDs : List String
  failingIDs : List String

inductive StatsigConfigWrapper where
  | gate (gate : StatsigGate) (overrides : List StatsigOverride)
  | dynamicConfig (dynamicConfig : StatsigDynamicConfig)
  | segment (segment : StatsigSegment)

/-- TransformError of types.ts, flattened: each constructor carries flagKey
first, then its specific payload. -/
inductive TransformError where
  | fetch_error (flagKey message : String)
  | unsupported_flag_kind (flagKey flagKind : String)
  | unit_id_not_mapped (flagKey contextKind : String)
  | custom_attribute_not_mapped (flagKey contextKind attr : String)
  | unsupported_pass_percentage (flagKey : String)
  | unsupported_operator (flagKey operator : String)
  | invalid_clause_values (flagKey operator : String) (values : List JSON)
  | unsupported_off_variation (flagKey : String) (flagEnvironmentName : Option String)
  | return_value_contains_null (flagKey : String)
  | unsupported_segment_type (flagKey : String)
  | segment_has_exclusions (flagKey : String)
  | prerequisite_flag_does_not_exist (flagKey prerequisiteFlagKey : String)
  | unsupported_prerequisite_flag_type (flagKey prerequisiteFlagKey prerequisiteFlagKind : String)

/-- Result of a transformation step: TransformResult of types.ts plus a
crash constructor modelling a thrown JS exception (nullthrows, an undefined
property access, or an explicit throw). -/
inductive TRes (α : Type) where
  | ok (result : α)
  | errs (errors : List TransformError)
  | crash

/-- The argument bundle of launchdarkly.ts (second revision); the I/O fields
apiKey, projectID and throttle are omitted as they never reach the pure
transformers. -/
structure Args where
  contextKindToUnitIDMapping : List (String × String)
  contextCustomAttributeMapping : List (String × List (String × String))
  environmentNameMapping : List (String × String)
  onlyEnvironments : Option (List String)

/-- environmentNameMapping[env] ?? env. -/
def envMapped (args : Args) (environmentName : String) : String :=
  (recordGet args.environmentNameMapping environmentName).getD environmentName

-- ---------------------------------------------------------------------------
-- util.ts
-- ---------------------------------------------------------------------------

def MAX_RULE_NAME_LENGTH : Nat := 100

/-- capRuleName: ruleName.substring(0, 100). -/
def capRuleName (ruleName : String) : String :=
  ruleName.take MAX_RULE_NAME_LENGTH

-- ---------------------------------------------------------------------------
-- launchdarkly.ts: selector translation (lines 2350-2412)
-- ---------------------------------------------------------------------------

structure VariantPercentage where
  variation : Nat
  passPercentage : ℚ
deriving DecidableEq

/-- transformRulePassPercentage: a rollout takes the weight of its first
entry divided by 1000; a fixed variation 0 / 1 becomes 100 / 0; anything
else is an unsupported_pass_percentage error.  An empty rollout list crashes
in the source (rollout.variations[0] is undefined, .weight throws). -/
def transformRulePassPercentage (flagKey : String) (rule : LDFallthrough) : TRes ℚ :=
  match rule.rollout with
  | some rollout =>
    match rollout.variations with
    | [] => .crash
    | variation :: _ => .ok (variation.weight / 1000)
  | none =>
    match rule.variation with
    | some 0 => .ok 100
    | some 1 => .ok 0
    | _ => .errs [.unsupported_pass_percentage flagKey]

/-- transformRuleVariantPercentages: each rollout entry keeps its variation
index with weight / 1000; a fixed variation becomes a single entry at 100. -/
def transformRuleVariantPercentages (flagKey : String) (rule : LDFallthrough) :
    TRes (List VariantPercentage) :=
  match rule.rollout with
  | some rollout =>
    .ok (rollout.variations.map (fun variation =>
      { variation := variation.variation, passPercentage := variation.weight / 1000 }))
  | none =>
    match rule.variation with
    | some v => .ok [{ variation := v, passPercentage := 100 }]
    | none => .errs [.unsupported_pass_percentage flagKey]


-- ---------------------------------------------------------------------------
-- launchdarkly.ts: clause translation (lines 2414-2625)
-- ---------------------------------------------------------------------------

/-- Errors carried by a failed step, empty for a success or a crash. -/
def tresErrors : TRes α → List TransformError
  | .errs es => es
  | _ => []

def tresIsCrash : TRes α → Bool
  | .crash => true
  | _ => false

/-- The fixed attribute-to-condition-type table of transformRuleClauseType.
The not-segmentMatch spelling is literal in the source (see the comment
there: it is neither notSegmentMatch nor not-segment-match). -/
def typeMappingLookup (attr : String) : Option StatsigConditionType :=
  match attr with
  | "country" => some .country
  | "email" => some .email
  | "ip" => some .ip_address
  | "not-segmentMatch" => some .fails_segment
  | "segmentMatch" => some .passes_segment
  | _ => none

/-- The type / field / customID part of a condition, the Pick of the source. -/
structure ClauseTypePart where
  type : StatsigConditionType
  field : Option String := none
  customID : Option String := none

def transformRuleClauseType (flagKey : String) (clause : LDClause) (args : Args) :
    TRes ClauseTypePart :=
  let contextKind := clause.contextKind.getD "user"
  if clause.attr == "key" then
    if contextKind == "user" then .ok { type := .user_id }
    else
      let unitID := recordGet args.contextKindToUnitIDMapping contextKind
      if jsFalsyOptStr unitID then .errs [.unit_id_not_mapped flagKey contextKind]
      else .ok { type := .unit_id, customID := unitID }
  else
    match typeMappingLookup clause.attr with
    | some t => .ok { type := t }
    | none =>
      let customField := (recordGet args.contextCustomAttributeMapping contextKind).bind
        (fun m => recordGet m clause.attr)
      if jsFalsyOptStr customField then
        .errs [.custom_attribute_not_mapped flagKey contextKind clause.attr]
      else .ok { type := .custom_field, field := customField }

/-- transformRuleOperator: the fixed operator table; negation flips the
entries exactly as written in the source; segmentMatch maps to undefined
(the condition type already encodes the segment check). -/
def transformRuleOperator (flagKey operator : String) (negate : Bool) :
    TRes (Option StatsigOperatorType) :=
  match operator with
  | "lessThan" => .ok (some (if negate then .gte else .lt))
  | "lessThanOrEqual" => .ok (some .lte)
  | "greaterThan" => .ok (some (if negate then .lte else .gt))
  | "greaterThanOrEqual" => .ok (some .gte)
  | "before" => .ok (some .before)
  | "after" => .ok (some .after)
  | "in" => .ok (some (if negate then .none else .any))
  | "matches" => .ok (some (if negate then .none else .str_matches))
  | "contains" => .ok (some (if negate then .str_contains_none else .str_contains_any))
  | "semVerEqual" => .ok (some .version_eq)
  | "startsWith" => .ok (some .str_matches)
  | "endsWith" => .ok (some .str_matches)
  | "segmentMatch" => .ok none
  | _ => .errs [.unsupported_operator flagKey operator]

/-- The character class of the escapeRegex replacement regex; the two brace
characters are written with hex escapes. -/
def regexSpecialChars : List Char :=
  ['.', '*', '+', '?', '^', '$', '\x7b', '\x7d', '(', ')', '|', '[', ']', '\\']

/-- escapeRegex: prefix every regex metacharacter with a backslash. -/
def escapeRegex (str : String) : String :=
  String.mk (str.data.flatMap (fun c =>
    if regexSpecialChars.contains c then ['\\', c] else [c]))

def JSON.isString : JSON → Bool
  | .str _ => true
  | _ => false

def JSON.isNumber : JSON → Bool
  | .num _ => true
  | _ => false

def JSON.isBoolean : JSON → Bool
  | .bool _ => true
  | _ => false

def isArrayOfPrimitives (values : List JSON) : Bool :=
  values.all JSON.isString || values.all JSON.isNumber || values.all JSON.isBoolean

def transformClauseValuesForOperator (flagKey operator : String) (values : List JSON) :
    TRes TargetValue :=
  if !isArrayOfPrimitives values then
    .errs [.invalid_clause_values flagKey operator values]
  else
    match operator with
    | "startsWith" =>
      .ok (.list (values.map (fun v => .str ("^" ++ escapeRegex (jsToString v)))))
    | "endsWith" =>
      .ok (.list (values.map (fun v => .str (escapeRegex (jsToString v) ++ "$"))))
    | _ =>
      .ok (.list (values.map (fun value =>
        match value with
        | .str _ => value
        | .num _ => value
        | _ => .str (jsonStringify value))))

def translateRuleClause (flagKey : String) (clause : LDClause) (args : Args) :
    TRes StatsigCondition :=
  match transformRuleClauseType flagKey clause args,
        transformRuleOperator flagKey clause.op clause.negate,
        transformClauseValuesForOperator flagKey clause.op clause.values with
  | .crash, _, _ => .crash
  | _, .crash, _ => .crash
  | _, _, .crash => .crash
  | .ok ct, .ok operator, .ok targetValue =>
    .ok { type := ct.type, field := ct.field, customID := ct.customID,
          operator := operator, targetValue := some targetValue }
  | r1, r2, r3 => .errs (tresErrors r1 ++ tresErrors r2 ++ tresErrors r3)

-- ---------------------------------------------------------------------------
-- launchdarkly.ts: rule translation (lines 1944-2097)
-- ---------------------------------------------------------------------------

/-- The rule name built by both rule translators (rule index appended to
avoid duplicate names; an empty description is falsy in JS). -/
def ldRuleName (environmentName : String) (description : Option String) (ruleIndex : Nat) :
    String :=
  "(" ++ environmentName ++ ") " ++
    (match description with
     | some d =>
       if d != "" then d ++ " import " ++ toString (ruleIndex + 1)
       else "import " ++ toString (ruleIndex + 1)
     | none => "import " ++ toString (ruleIndex + 1))

/-- translateLaunchDarklyRule (second revision: the rule and a possibly-null
percentage override are passed in by the caller). -/
def translateLaunchDarklyRule (flagKey environmentName : String) (rule : LDRule)
    (ruleIndex : Nat) (percentageOverride : Option ℚ) (args : Args) : TRes StatsigRule :=
  match (match percentageOverride with
         | some p => TRes.ok p
         | none => transformRulePassPercentage flagKey rule.selector) with
  | .crash => .crash
  | ppResult =>
    let ppErrors := tresErrors ppResult
    let passPercentage := match ppResult with | .ok p => some p | _ => none
    let clauseResults := rule.clauses.map (fun clause => translateRuleClause flagKey clause args)
    if clauseResults.any tresIsCrash then .crash
    else
      let errors := ppErrors ++ (clauseResults.map tresErrors).flatten
      let conditions := clauseResults.filterMap (fun r =>
        match r with | .ok c => some c | _ => none)
      if errors.isEmpty then
        match passPercentage with
        | none => .crash
        | some p =>
          .ok { name := capRuleName (ldRuleName environmentName rule.description ruleIndex),
                passPercentage := some p,
                conditions := conditions,
                environments := some [envMapped args environmentName] }
      else .errs errors

/-- translateLaunchDarklyDynamicConfigRule (lines 2007-2097).  It looks the
rule up by index itself (nullthrows), recomputes the off-variation override,
and, unlike the gate version, does not cap the rule name. -/
def translateLaunchDarklyDynamicConfigRule (flagKey environmentName : String)
    (flagEnvironment : LDFlagEnvironment) (ruleIndex : Nat)
    (variations : List LDVariation) (args : Args) : TRes StatsigRule :=
  match (flagEnvironment.rules.getD []).get? ruleIndex with
  | none => .crash
  | some rule =>
    match (if flagEnvironment.«on» then
             transformRuleVariantPercentages flagKey rule.selector
           else
             match flagEnvironment.offVariation with
             | none => TRes.errs [.unsupported_off_variation flagKey (some environmentName)]
             | some ov => TRes.ok [{ variation := ov, passPercentage := 100 }]) with
    | .crash => .crash
    | vpResult =>
      let vpErrors := tresErrors vpResult
      let variantPercentages := match vpResult with | .ok vps => some vps | _ => none
      let clauseResults := rule.clauses.map (fun clause => translateRuleClause flagKey clause args)
      if clauseResults.any tresIsCrash then .crash
      else
        let errors := vpErrors ++ (clauseResults.map tresErrors).flatten
        let conditions := clauseResults.filterMap (fun r =>
          match r with | .ok c => some c | _ => none)
        if errors.isEmpty then
          match variantPercentages with
          | none => .crash
          | some vps =>
            match vps.mapM (fun vp => (variations.get? vp.variation).map (fun v =>
                ({ name := v.name, passPercentage := vp.passPercentage,
                   returnValue := v.value } : StatsigVariant))) with
            | none => .crash
            | some variants =>
              .ok { name := ldRuleName environmentName rule.description ruleIndex,
                    conditions := conditions,
                    environments := some [envMapped args environmentName],
                    variants := some variants }
        else .errs errors

/-- transformFallthroughRule (lines 2125-2161). -/
def transformFallthroughRule (flagKey environmentName : String)
    (flagEnvironment : LDFlagEnvironment) (args : Args) : TRes StatsigRule :=
  let ruleName := "(" ++ environmentName ++ ") Fall through imported rule"
  let base : StatsigRule :=
    { name := capRuleName ruleName,
      passPercentage := some 0,
      conditions := [{ type := .public }],
      environments := some [envMapped args environmentName] }
  if flagEnvironment.«on» = false then
    .ok { base with passPercentage := some (if flagEnvironment.offVariation = some 0 then 100 else 0) }
  else
    match flagEnvironment.fallthrough with
    | some ft =>
      match transformRulePassPercentage flagKey ft with
      | .ok p => .ok { base with passPercentage := some p }
      | .errs es => .errs es
      | .crash => .crash
    | none => .ok base

-- ---------------------------------------------------------------------------
-- launchdarkly.ts: prerequisite rules (lines 2231-2348)
-- ---------------------------------------------------------------------------

/-- The rule built for one prerequisite: the spread ...offVariationMapping
of the source sets passPercentage for a gate and variants for a dynamic
config, both encoding the off variation of the current flag. -/
def mkPrerequisiteRule (isFlagBoolean : Bool) (offVariation : LDVariation)
    (ruleName : String) (conditions : List StatsigCondition)
    (environments : List String) : StatsigRule :=
  if isFlagBoolean then
    { name := ruleName, conditions := conditions,
      passPercentage := some (if jsTruthy offVariation.value then 100 else 0),
      environments := some environments }
  else
    { name := ruleName, conditions := conditions,
      variants := some [{ name := offVariation.name, passPercentage := 100,
                          returnValue := offVariation.value }],
      environments := some environments }

/-- The for-of loop of transformPrerequisitesRule.  Both the error returns
and the off-prerequisite return leave the loop (discarding the accumulated
preqRules); only the on-prerequisite case pushes a rule and continues. -/
def transformPrerequisitesRuleLoop (flagKey environmentName : String)
    (offVariation : LDVariation) (isFlagBoolean : Bool)
    (flagsByKey : List (String × LaunchDarklyFlag)) (args : Args) :
    List LDPrerequisite → List StatsigRule → TRes (List StatsigRule)
  | [], preqRules => .ok preqRules
  | prerequisite :: rest, preqRules =>
    let prerequisiteFlagKey := prerequisite.key
    match jsMapGet flagsByKey prerequisiteFlagKey with
    | none => .errs [.prerequisite_flag_does_not_exist flagKey prerequisiteFlagKey]
    | some prerequisiteFlag =>
      if prerequisiteFlag.kind != "boolean" then
        .errs [.unsupported_prerequisite_flag_type flagKey prerequisiteFlagKey
                prerequisiteFlag.kind]
      else
        let prerequisiteFlagEnvironment :=
          recordGet (prerequisiteFlag.environments.getD []) environmentName
        let ruleName :=
          "(" ++ environmentName ++ ") Imported prerequisite rule " ++ prerequisiteFlagKey
        if ((prerequisiteFlagEnvironment.map (fun e => e.«on»)).getD false) = false then
          .ok [mkPrerequisiteRule isFlagBoolean offVariation ruleName
                [{ type := .public }] [envMapped args environmentName]]
        else
          match prerequisiteFlag.variations.get? prerequisite.variation with
          | none => .crash
          | some pv =>
            let conditionType :=
              if jsTruthy pv.value then StatsigConditionType.fails_gate
              else StatsigConditionType.passes_gate
            transformPrerequisitesRuleLoop flagKey environmentName offVariation
              isFlagBoolean flagsByKey args rest
              (preqRules ++ [mkPrerequisiteRule isFlagBoolean offVariation ruleName
                [{ type := conditionType, targetValue := some (.str prerequisiteFlagKey) }]
                [envMapped args environmentName]])

/-- transformPrerequisitesRule.  The callers pass flag.variations at the
(already null-checked) off-variation index, which can still be out of range:
the source then dereferences undefined (offVariation.value) and crashes, and
so does this embedding. -/
def transformPrerequisitesRule (flagKey : String) (offVariation : Option LDVariation)
    (flagEnvironment : LDFlagEnvironment) (isFlagBoolean : Bool)
    (flagsByKey : List (String × LaunchDarklyFlag)) (environmentName : String)
    (args : Args) : TRes (List StatsigRule) :=
  match offVariation with
  | none => .crash
  | some offV =>
    transformPrerequisitesRuleLoop flagKey environmentName offV isFlagBoolean
      flagsByKey args (flagEnvironment.prerequisites.getD []) []

-- ---------------------------------------------------------------------------
-- launchdarkly.ts: transformFlagToGate (lines 1642-1782)
-- ---------------------------------------------------------------------------

/-- Replace the element at index i, List.modify written out. -/
def listModify (l : List α) (i : Nat) (f : α → α) : List α :=
  match l, i with
  | [], _ => []
  | a :: rest, 0 => f a :: rest
  | a :: rest, n + 1 => a :: listModify rest n f

/-- The two conditional pushes at the end of the override-target loop:
variation 0 appends to passingIDs, variation 1 to failingIDs, anything else
leaves the override as created. -/
def applyOverrideTarget (overrideTarget : LDTarget) (o : StatsigOverride) : StatsigOverride :=
  if overrideTarget.variation == 0 then
    { o with passingIDs := o.passingIDs ++ overrideTarget.values }
  else if overrideTarget.variation == 1 then
    { o with failingIDs := o.failingIDs ++ overrideTarget.values }
  else o

/-- One iteration of the override-target forEach of transformFlagToGate. -/
def overrideTargetStep (flagKey env : String) (args : Args)
    (acc : List StatsigOverride × List TransformError) (overrideTarget : LDTarget) :
    List StatsigOverride × List TransformError :=
  let overrides := acc.1
  let errors := acc.2
  if overrideTarget.values.isEmpty then (overrides, errors)
  else
    let contextKind := overrideTarget.contextKind.getD "user"
    let unitID : Option String :=
      if contextKind == "user" then some "userID"
      else recordGet args.contextKindToUnitIDMapping contextKind
    if jsFalsyOptStr unitID then
      (overrides, errors ++ [.unit_id_not_mapped flagKey contextKind])
    else
      match unitID with
      | none => (overrides, errors ++ [.unit_id_not_mapped flagKey contextKind])
      | some u =>
        let environment := envMapped args env
        match overrides.findIdx? (fun o => o.unitID == u && o.environment == some environment) with
        | some i => (listModify overrides i (applyOverrideTarget overrideTarget), errors)
        | none =>
          (overrides ++ [applyOverrideTarget overrideTarget
             { environment := some environment, unitID := u,
               passingIDs := [], failingIDs := [] }],
           errors)

/-- The override-building block of transformFlagToGate: guarded by the plain
targets list being non-empty; when it runs, it processes targets followed by
contextTargets. -/
def buildOverridesForEnv (flagKey env : String) (environmentData : LDFlagEnvironment)
    (args : Args) (overrides : List StatsigOverride) :
    List StatsigOverride × List TransformError :=
  if (environmentData.targets.getD []).isEmpty then (overrides, [])
  else
    ((environmentData.targets.getD []) ++ (environmentData.contextTargets.getD [])).foldl
      (overrideTargetStep flagKey env args) (overrides, [])

/-- The percentageOverride of transformFlagToGate: when the environment is
off the off-variation decides the pass percentage for every rule of the
environment. -/
def gatePercentageOverride (environmentData : LDFlagEnvironment) : Option ℚ :=
  if environmentData.«on» = false then
    some (if environmentData.offVariation = some 0 then 100 else 0)
  else none

/-- The ordinary-rule for-loop of transformFlagToGate, collecting translated
rules and errors (Option.none models a thrown exception). -/
def translateGateRulesLoop (flagKey env : String) (args : Args)
    (percentageOverride : Option ℚ) :
    List (Nat × LDRule) → Option (List StatsigRule × List TransformError)
  | [] => some ([], [])
  | (ruleIndex, rule) :: rest =>
    match translateLaunchDarklyRule flagKey env rule ruleIndex percentageOverride args with
    | .crash => none
    | .ok r =>
      (translateGateRulesLoop flagKey env args percentageOverride rest).map
        (fun p => (r :: p.1, p.2))
    | .errs e =>
      (translateGateRulesLoop flagKey env args percentageOverride rest).map
        (fun p => (p.1, e ++ p.2))

/-- The per-environment body of the forEach of transformFlagToGate, given the
overrides accumulated so far; returns the updated overrides together with the
rules and errors this environment appends (the source appends them to shared
arrays in the same order).  Note the early void return on a null
offVariation: the source intends to report unsupported_off_variation but
returns from the forEach callback, which merely skips the environment. -/
def gateEnvContribution (flag : LaunchDarklyFlag)
    (flagsByKey : List (String × LaunchDarklyFlag)) (args : Args)
    (overrides₀ : List StatsigOverride) (entry : String × LDFlagEnvironment) :
    Option (List StatsigOverride × List StatsigRule × List TransformError) :=
  let env := entry.1
  let environmentData := entry.2
  if (match args.onlyEnvironments with
      | some only => !only.contains env
      | none => false) then some (overrides₀, [], [])
  else
    let ovres := buildOverridesForEnv flag.key env environmentData args overrides₀
    match environmentData.offVariation with
    | none => some (ovres.1, [], ovres.2)
    | some offVariationIndex =>
      let offVariation := flag.variations.get? offVariationIndex
      match transformPrerequisitesRule flag.key offVariation environmentData true
          flagsByKey env args with
      | .crash => none
      | preqResult =>
        match translateGateRulesLoop flag.key env args
            (gatePercentageOverride environmentData)
            (environmentData.rules.getD []).enum with
        | none => none
        | some rulesAndErrors =>
          match transformFallthroughRule flag.key env environmentData args with
          | .crash => none
          | ftResult =>
            let preqRules := match preqResult with | .ok rs => rs | _ => []
            let ftRules := match ftResult with | .ok r => [r] | _ => []
            some (ovres.1, preqRules ++ rulesAndErrors.1 ++ ftRules,
                  ovres.2 ++ tresErrors preqResult ++ rulesAndErrors.2 ++ tresErrors ftResult)

structure GateAcc where
  overrides : List StatsigOverride
  rules : List StatsigRule
  errors : List TransformError

def gateEnvStep (flag : LaunchDarklyFlag) (flagsByKey : List (String × LaunchDarklyFlag))
    (args : Args) (acc : GateAcc) (entry : String × LDFlagEnvironment) : Option GateAcc :=
  (gateEnvContribution flag flagsByKey args acc.overrides entry).map
    (fun c => { overrides := c.1, rules := acc.rules ++ c.2.1, errors := acc.errors ++ c.2.2 })

/-- transformFlagToGate: fold the environments, then reject the flag when any
error was collected, otherwise build the gate wrapper. -/
def transformFlagToGate (flag : LaunchDarklyFlag)
    (flagsByKey : List (String × LaunchDarklyFlag)) (args : Args) :
    TRes StatsigConfigWrapper :=
  match (flag.environments.getD []).foldlM (gateEnvStep flag flagsByKey args)
      { overrides := [], rules := [], errors := [] } with
  | none => .crash
  | some acc =>
    if acc.errors.isEmpty then
      .ok (.gate
        { id := flag.key, name := flag.name, description := some flag.description,
          type := some (if flag.temporary then "TEMPORARY" else "PERMANENT"),
          tags := some flag.tags, rules := acc.rules }
        acc.overrides)
    else .errs acc.errors

-- ---------------------------------------------------------------------------
-- launchdarkly.ts: transformSegment (lines 1380-1477)
-- ---------------------------------------------------------------------------

/-- The rules one environment entry contributes inside transformSegment: a
100% rule for the explicit included ids, one 100% rule per included-context
group with non-null values, then every targeting rule that translates
successfully (a failed translation is skipped with no error recorded: the
loop has no else branch).  translateLaunchDarklyRule is called with a fixed
percentage override of 100 and therefore cannot crash. -/
def segmentEnvRules (key env : String) (ldSegment : LaunchDarklySegment) (args : Args) :
    List StatsigRule :=
  (match ldSegment.included with
   | some included =>
     if included.isEmpty then []
     else [{ name := "(" ++ env ++ ") Included user IDs",
             passPercentage := some 100,
             conditions := [{ type := .user_id, operator := some .any,
                              targetValue := some (.list (included.map JSON.str)) }],
             environments := some [envMapped args env] }]
   | none => []) ++
  (match ldSegment.includedContexts with
   | some includedContexts =>
     if includedContexts.isEmpty then []
     else includedContexts.filterMap (fun context =>
       match context.values with
       | none => none
       | some values =>
         some { name := "(" ++ env ++ ") Included " ++
                  (match context.contextKind with | some ck => ck | none => "null") ++ " IDs",
                passPercentage := some 100,
                conditions := [
                  if jsFalsyOptStr context.contextKind || context.contextKind == some "user" then
                    { type := .user_id, operator := some .any,
                      targetValue := some (.list (values.map JSON.str)) }
                  else
                    { type := .unit_id, operator := some .any,
                      customID := recordGet args.contextKindToUnitIDMapping
                        (context.contextKind.getD ""),
                      targetValue := some (.list (values.map JSON.str)) }],
                environments := some [envMapped args env] })
   | none => []) ++
  (ldSegment.rules.enum.filterMap (fun ir =>
    match translateLaunchDarklyRule key env ir.2 ir.1 (some 100) args with
    | .ok r => some r
    | _ => none))

/-- transformSegment: an empty environment record crashes in the source
(allLdSegments[0].key); unbounded segments and segments mixing the two
exclusion forms are rejected; everything else is emitted. -/
def transformSegment (ldSegmentByEnv : List (String × LaunchDarklySegment)) (args : Args) :
    TRes StatsigSegment :=
  match ldSegmentByEnv with
  | [] => .crash
  | (_, first) :: _ =>
    let allLdSegments := ldSegmentByEnv.map (fun e => e.2)
    let key := first.key
    if allLdSegments.any (fun s => s.unbounded) then
      .errs [.unsupported_segment_type key]
    else if (allLdSegments.any (fun s => !(s.excluded.getD []).isEmpty)) &&
            (allLdSegments.any (fun s => !(s.excludedContexts.getD []).isEmpty)) then
      .errs [.segment_has_exclusions key]
    else
      .ok { id := key, name := first.name,
            description := first.description,
            type := "rule_based",
            rules := (ldSegmentByEnv.map (fun e =>
              segmentEnvRules key e.1 e.2 args)).flatten }

/-- A copy of a segment with both exclusion fields cleared, used to state
that the emitted segment never depends on them. -/
def eraseSegmentExclusions (s : LaunchDarklySegment) : LaunchDarklySegment :=
  { s with excluded := none, excludedContexts := none }

-- ---------------------------------------------------------------------------
-- part_001: sortConfigsFromDependentToIndependent, and
-- import.ts: reorderGatesByDependencies (lines 363-426)
-- ---------------------------------------------------------------------------

/-- Condition types that record a dependency, per configType, exactly the
disjunction in sortConfigsFromDependentToIndependent. -/
def sortRefCondition (configType : String) (condition : StatsigCondition) : Bool :=
  (configType == "gate" &&
    (condition.type == .passes_gate || condition.type == .fails_gate)) ||
  (configType == "segment" &&
    (condition.type == .passes_segment || condition.type == .fails_segment))

/-- Condition types that record a dependency in reorderGatesByDependencies. -/
def gateRefCondition (condition : StatsigCondition) : Bool :=
  condition.type == .passes_gate || condition.type == .fails_gate

/-- Does this configuration reference the identifier target?  The source
reads condition.targetValue as string and requires it truthy, so only a
non-empty string target counts. -/
def configRefersToId (getRules : α → List StatsigRule) (refCond : StatsigCondition → Bool)
    (config : α) (target : String) : Bool :=
  ((getRules config).any (fun rule => rule.conditions.any (fun condition =>
    refCond condition &&
    (match condition.targetValue with
     | some (.str s) => s == target
     | _ => false)))) && target != ""

/-- The dependencies map of the source: dependencies.get(target) holds the
ids of the configs whose rules reference target; edges are only recorded for
targets present in the config map. -/
def dependentsOf (getId : α → String) (getRules : α → List StatsigRule)
    (refCond : StatsigCondition → Bool) (configs : List α) (target : String) :
    List String :=
  if configs.any (fun d => getId d == target) then
    (configs.filter (fun c => configRefersToId getRules refCond c target)).map getId
  else []

/-- new Map(configs.map(c => [c.id, c])).get: the last binding wins. -/
def configMapGet (getId : α → String) (configs : List α) (cid : String) : Option α :=
  configs.reverse.find? (fun c => getId c == cid)

/-- new Set(l): insertion order with first occurrence kept. -/
def jsSetOfList (l : List String) : List String :=
  l.foldl (fun acc a => if acc.contains a then acc else acc ++ [a]) []

/-- The inner for-of scan of the while loop: the first remaining id none of
whose remaining dependents is still remaining, and that resolves in the
config map. -/
def topoFindEligible (lookup : String → Option α) (deps : String → List String)
    (remaining : List String) : Option String :=
  remaining.find? (fun cid =>
    !((deps cid).any (fun dep => remaining.contains dep)) && (lookup cid).isSome)

/-- The while loop of the dependency sorter.  The source loops while the
remaining set is non-empty, throwing when a full pass finds no eligible
node; each successful pass removes exactly one element, so running the loop
with fuel initialised to the number of remaining ids is exactly the
unbounded loop (the recursion is on the fuel to keep the definition
computable by the kernel).  Option.none models the thrown circular-dependency
error. -/
def topoSortGo (lookup : String → Option α) (deps : String → List String) :
    Nat → List String → Option (List α)
  | 0, remaining => if remaining.isEmpty then some [] else none
  | fuel + 1, remaining =>
    if remaining.isEmpty then some []
    else
      match topoFindEligible lookup deps remaining with
      | none => none
      | some cid =>
        match lookup cid with
        | none => none
        | some config =>
          (topoSortGo lookup deps fuel (remaining.erase cid)).map
            (fun rest => config :: rest)

/-- sortConfigsFromDependentToIndependent (part_001, lines 79-145), generic
over the id and rules projections like the source generic over
T extends id-and-rules. -/
def sortConfigsFromDependentToIndependent (getId : α → String)
    (getRules : α → List StatsigRule) (configs : List α) (configType : String) :
    Option (List α) :=
  let remaining := jsSetOfList (configs.map getId)
  topoSortGo (configMapGet getId configs)
    (dependentsOf getId getRules (sortRefCondition configType) configs)
    remaining.length remaining

/-- reorderGatesByDependencies (import.ts, lines 363-426): the same
algorithm specialised to gates and the two gate condition types. -/
def reorderGatesByDependencies (gates : List StatsigGate) : Option (List StatsigGate) :=
  let remaining := jsSetOfList (gates.map (fun g => g.id))
  topoSortGo (configMapGet (fun g => g.id) gates)
    (dependentsOf (fun g => g.id) (fun g => g.rules) gateRefCondition gates)
    remaining.length remaining

-- ---------------------------------------------------------------------------
-- import.ts: deleteExistingImportedConfigs (lines 209-276)
-- ---------------------------------------------------------------------------

/-- The Statsig project state visible to the delete pass: the stored
configurations by kind.  getStatsigGate and friends model the GET endpoints,
which return the stored object or a 404 (Option.none). -/
structure StatsigState where
  gates : List StatsigGate
  dynamicConfigs : List StatsigDynamicConfig
  segments : List StatsigSegment

def getStatsigGate (st : StatsigState) (configName : String) : Option StatsigGate :=
  st.gates.find? (fun g => g.id == configName)

def getStatsigDynamicConfig (st : StatsigState) (configName : String) :
    Option StatsigDynamicConfig :=
  st.dynamicConfigs.find? (fun d => d.id == configName)

def getStatsigSegment (st : StatsigState) (configName : String) : Option StatsigSegment :=
  st.segments.find? (fun s => s.id == configName)

/-- tags?.includes(importTag): undefined tags count as untagged. -/
def tagsInclude (tags : Option (List String)) (importTag : String) : Bool :=
  match tags with
  | some ts => ts.contains importTag
  | none => false

/-- The accumulator of the scan loop of deleteExistingImportedConfigs. -/
structure DeleteScan where
  existingGates : List StatsigGate
  existingDynamicConfigNames : List String
  existingGatesWithoutImportTag : List String
  existingDynamicConfigsWithoutImportTag : List String
  existingSegmentNames : List String
  existingSegmentsWithoutImportTag : List String

/-- One iteration of the scan: a found gate shadows a dynamic config, which
shadows a segment (else-if chain of the source). -/
def deleteScanStep (st : StatsigState) (importTag : String) (acc : DeleteScan)
    (configName : String) : DeleteScan :=
  match getStatsigGate st configName with
  | some gate =>
    { acc with
      existingGates := acc.existingGates ++ [gate],
      existingGatesWithoutImportTag :=
        if !(tagsInclude gate.tags importTag) then
          acc.existingGatesWithoutImportTag ++ [gate.id]
        else acc.existingGatesWithoutImportTag }
  | none =>
    match getStatsigDynamicConfig st configName with
    | some dynamicConfig =>
      { acc with
        existingDynamicConfigNames := acc.existingDynamicConfigNames ++ [configName],
        existingDynamicConfigsWithoutImportTag :=
          if !(tagsInclude dynamicConfig.tags importTag) then
            acc.existingDynamicConfigsWithoutImportTag ++ [configName]
          else acc.existingDynamicConfigsWithoutImportTag }
    | none =>
      match getStatsigSegment st configName with
      | some segment =>
        { acc with
          existingSegmentNames := acc.existingSegmentNames ++ [configName],
          existingSegmentsWithoutImportTag :=
            if !(tagsInclude segment.tags importTag) then
              acc.existingSegmentsWithoutImportTag ++ [configName]
            else acc.existingSegmentsWithoutImportTag }
      | none => acc

def emptyDeleteScan : DeleteScan :=
  { existingGates := [], existingDynamicConfigNames := [],
    existingGatesWithoutImportTag := [], existingDynamicConfigsWithoutImportTag := [],
    existingSegmentNames := [], existingSegmentsWithoutImportTag := [] }

/-- Outcome of deleteExistingImportedConfigs: the returned ok-or-conflicts
value, plus the delete calls issued, in the order the source issues them
(all segments, then the gates in dependency order, then all dynamic
configs). -/
structure DeleteResult where
  ok : Bool
  existingGatesWithoutImportTag : List String
  existingDynamicConfigsWithoutImportTag : List String
  existingSegmentsWithoutImportTag : List String
  deletedSegments : List String
  deletedGates : List String
  deletedDynamicConfigs : List String

/-- deleteExistingImportedConfigs: scan every requested identifier, return
the conflict lists (deleting nothing) when any same-identifier configuration
lacks the import tag, otherwise delete everything found.  Option.none models
the circular-dependency throw of the gate reordering. -/
def deleteExistingImportedConfigs (configNames : List String) (importTag : String)
    (st : StatsigState) : Option DeleteResult :=
  let scan := configNames.foldl (deleteScanStep st importTag) emptyDeleteScan
  if !scan.existingGatesWithoutImportTag.isEmpty ||
     !scan.existingDynamicConfigsWithoutImportTag.isEmpty ||
     !scan.existingSegmentsWithoutImportTag.isEmpty then
    some { ok := false,
           existingGatesWithoutImportTag := scan.existingGatesWithoutImportTag,
           existingDynamicConfigsWithoutImportTag :=
             scan.existingDynamicConfigsWithoutImportTag,
           existingSegmentsWithoutImportTag := scan.existingSegmentsWithoutImportTag,
           deletedSegments := [], deletedGates := [], deletedDynamicConfigs := [] }
  else
    match reorderGatesByDependencies scan.existingGates with
    | none => none
    | some gatesOrderedByDependencies =>
      some { ok := true,
             existingGatesWithoutImportTag := [],
             existingDynamicConfigsWithoutImportTag := [],
             existingSegmentsWithoutImportTag := [],
             deletedSegments := scan.existingSegmentNames,
             deletedGates := gatesOrderedByDependencies.map (fun g => g.id),
             deletedDynamicConfigs := scan.existingDynamicConfigNames }

-- ---------------------------------------------------------------------------
-- Claim theorems
-- ---------------------------------------------------------------------------

/-- C1: for every rule or fallthrough selector carrying a weighted rollout,
the translated gate pass percentage is the first rollout entry weight
divided by 1000 and every translated variant percentage is the entry weight
divided by 1000; a fixed-variation selector gives 100 at index 0 and 0 at
index 1 for gates, and a single 100-percent variant for dynamic configs. -/
theorem c1_selector_percentages (flagKey : String) (sel : LDFallthrough) :
    (∀ v vs, sel.rollout = some { variations := v :: vs } →
      transformRulePassPercentage flagKey sel = .ok (v.weight / 1000)) ∧
    (sel.rollout = none → sel.variation = some 0 →
      transformRulePassPercentage flagKey sel = .ok 100) ∧
    (sel.rollout = none → sel.variation = some 1 →
      transformRulePassPercentage flagKey sel = .ok 0) ∧
    (∀ rollout, sel.rollout = some rollout →
      transformRuleVariantPercentages flagKey sel =
        .ok (rollout.variations.map (fun v =>
          { variation := v.variation, passPercentage := v.weight / 1000 }))) ∧
    (∀ n, sel.rollout = none → sel.variation = some n →
      transformRuleVariantPercentages flagKey sel =
        .ok [{ variation := n, passPercentage := 100 }]) := by
  refine ⟨?_, ?_, ?_, ?_, ?_⟩
  · intro v vs h
    simp [transformRulePassPercentage, h]
  · intro h1 h2
    simp [transformRulePassPercentage, h1, h2]
  · intro h1 h2
    simp [transformRulePassPercentage, h1, h2]
  · intro rollout h
    simp [transformRuleVariantPercentages, h]
  · intro n h1 h2
    simp [transformRuleVariantPercentages, h1, h2]

theorem c1_selector_percentages_witness :
    transformRulePassPercentage "f"
      { variation := none, rollout := some { variations := [⟨0, 51500⟩, ⟨1, 48500⟩] } } =
      .ok (51500 / 1000) ∧
    transformRulePassPercentage "f" { variation := some 0, rollout := none } = .ok 100 ∧
    transformRulePassPercentage "f" { variation := some 1, rollout := none } = .ok 0 ∧
    transformRuleVariantPercentages "f"
      { variation := none, rollout := some { variations := [⟨0, 51500⟩, ⟨1, 48500⟩] } } =
      .ok [{ variation := 0, passPercentage := 51500 / 1000 },
           { variation := 1, passPercentage := 48500 / 1000 }] ∧
    transformRuleVariantPercentages "f" { variation := some 2, rollout := none } =
      .ok [{ variation := 2, passPercentage := 100 }] := by
  refine ⟨?_, ?_, ?_, ?_, ?_⟩
  · exact (c1_selector_percentages "f" _).1 ⟨0, 51500⟩ [⟨1, 48500⟩] rfl
  · exact (c1_selector_percentages "f" _).2.1 rfl rfl
  · exact (c1_selector_percentages "f" _).2.2.1 rfl rfl
  · exact (c1_selector_percentages "f" _).2.2.2.1 { variations := [⟨0, 51500⟩, ⟨1, 48500⟩] } rfl
  · exact (c1_selector_percentages "f" _).2.2.2.2 2 rfl rfl

/-- C8: startsWith values translate to caret-anchored regex-escaped
patterns, endsWith values to dollar-suffixed regex-escaped patterns, with
the documented concrete examples. -/
theorem c8_starts_ends_with_patterns (flagKey : String) (ss : List String) :
    transformClauseValuesForOperator flagKey "startsWith" (ss.map JSON.str) =
      .ok (.list (ss.map (fun s => JSON.str ("^" ++ escapeRegex s)))) ∧
    transformClauseValuesForOperator flagKey "endsWith" (ss.map JSON.str) =
      .ok (.list (ss.map (fun s => JSON.str (escapeRegex s ++ "$")))) ∧
    escapeRegex "foo.bar" = "foo\\.bar" ∧
    escapeRegex "a+b" = "a\\+b" ∧
    transformClauseValuesForOperator flagKey "startsWith" [JSON.str "foo.bar"] =
      .ok (.list [JSON.str "^foo\\.bar"]) ∧
    transformClauseValuesForOperator flagKey "endsWith" [JSON.str "a+b"] =
      .ok (.list [JSON.str "a\\+b$"]) := by
  have hprim : isArrayOfPrimitives (ss.map JSON.str) = true := by
    simp [isArrayOfPrimitives, List.all_map, JSON.isString, Function.comp]
  refine ⟨?_, ?_, by decide, by decide, ?_, ?_⟩
  · simp [transformClauseValuesForOperator, hprim, jsToString]
  · simp [transformClauseValuesForOperator, hprim, jsToString]
  · exact rfl
  · exact rfl

set_option maxRecDepth 10000 in
/-- C9: refuted on the code (code bug): translateLaunchDarklyDynamicConfigRule
never applies capRuleName, so a dynamic-config rule built from a rule with a
100-character description gets a 122-character name, above the
MAX_RULE_NAME_LENGTH bound that capRuleName enforces for gate rules. -/
theorem c9_dynamic_config_rule_name_uncapped :
    ∃ r, translateLaunchDarklyDynamicConfigRule "flag" "production"
        { «on» := true, targets := none, contextTargets := none,
          offVariation := some 0,
          rules := some [{ description := some (String.mk (List.replicate 100 'a')),
                           clauses := [], variation := some 0, rollout := none }],
          fallthrough := none, prerequisites := none }
        0 [{ name := "v", value := JSON.obj [] }]
        { contextKindToUnitIDMapping := [], contextCustomAttributeMapping := [],
          environmentNameMapping := [], onlyEnvironments := none } = .ok r ∧
      MAX_RULE_NAME_LENGTH < r.name.length := by
  refine ⟨_, rfl, ?_⟩
  decide

set_option maxHeartbeats 2000000 in
/-- With a non-null percentage override, a successfully translated rule
carries exactly that percentage (the selector of the rule is ignored). -/
theorem translateLaunchDarklyRule_override_pass (flagKey env : String) (rule : LDRule)
    (ruleIndex : Nat) (p : ℚ) (args : Args) (r : StatsigRule)
    (h : translateLaunchDarklyRule flagKey env rule ruleIndex (some p) args = .ok r) :
    r.passPercentage = some p := by
  simp only [translateLaunchDarklyRule, tresErrors] at h
  split at h
  · exact absurd h (by simp)
  · split at h
    · injection h with h1
      rw [← h1]
    · exact absurd h (by simp)

/-- C5: for a boolean flag in an environment whose on-switch is off and
whose off-variation index is declared, every successfully translated
ordinary rule (which transformFlagToGate translates under
gatePercentageOverride) and the synthesized fallthrough rule carry pass
percentage 100 when the off-variation index is 0 and 0 otherwise, whatever
rollout or fixed-variation data the rule or fallthrough contains. -/
theorem c5_off_environment_forces_off_variation_percentage
    (flagKey env : String) (environmentData : LDFlagEnvironment) (args : Args) (ov : Nat)
    (hoff : environmentData.«on» = false)
    (hov : environmentData.offVariation = some ov) :
    (∀ rule ruleIndex r,
      translateLaunchDarklyRule flagKey env rule ruleIndex
        (gatePercentageOverride environmentData) args = .ok r →
      r.passPercentage = some (if ov = 0 then (100 : ℚ) else 0)) ∧
    (∀ r, transformFallthroughRule flagKey env environmentData args = .ok r →
      r.passPercentage = some (if ov = 0 then (100 : ℚ) else 0)) := by
  have hgo : gatePercentageOverride environmentData =
      some (if ov = 0 then (100 : ℚ) else 0) := by
    simp [gatePercentageOverride, hoff, hov]
  constructor
  · intro rule ruleIndex r h
    rw [hgo] at h
    exact translateLaunchDarklyRule_override_pass _ _ _ _ _ _ _ h
  · intro r h
    unfold transformFallthroughRule at h
    rw [hoff] at h
    rw [if_pos rfl] at h
    rw [hov] at h
    injection h with h1
    rw [← h1]
    by_cases h0 : ov = 0
    · subst h0
      rfl
    · simp [h0]

def c5WitnessEnv : LDFlagEnvironment :=
  { «on» := false, targets := none, contextTargets := none, offVariation := some 1,
    rules := some [{ description := none, clauses := [], variation := none,
                     rollout := some { variations := [⟨0, 99000⟩] } }],
    fallthrough := some { variation := some 0, rollout := none },
    prerequisites := none }

def c5WitnessRule : LDRule :=
  { description := none, clauses := [], variation := none,
    rollout := some { variations := [⟨0, 99000⟩] } }

def c5WitnessArgs : Args :=
  { contextKindToUnitIDMapping := [], contextCustomAttributeMapping := [],
    environmentNameMapping := [], onlyEnvironments := none }

theorem c5_off_environment_forces_off_variation_percentage_witness :
    translateLaunchDarklyRule "flag" "production" c5WitnessRule 0
      (gatePercentageOverride c5WitnessEnv) c5WitnessArgs =
      .ok { name := "(production) import 1", passPercentage := some 0,
            conditions := [], environments := some ["production"] } ∧
    (some 0 : Option ℚ) = some 0 ∧
    transformFallthroughRule "flag" "production" c5WitnessEnv c5WitnessArgs =
      .ok { name := "(production) Fall through imported rule", passPercentage := some 0,
            conditions := [{ type := .public }], environments := some ["production"] } ∧
    ({ name := "(production) import 1", passPercentage := some 0,
       conditions := [], environments := some ["production"] } : StatsigRule).passPercentage
      = some (if 1 = 0 then (100 : ℚ) else 0) ∧
    ({ name := "(production) Fall through imported rule", passPercentage := some 0,
       conditions := [{ type := .public }],
       environments := some ["production"] } : StatsigRule).passPercentage
      = some (if 1 = 0 then (100 : ℚ) else 0) := by
  refine ⟨rfl, rfl, rfl, ?_, ?_⟩
  · exact (c5_off_environment_forces_off_variation_percentage "flag" "production"
      c5WitnessEnv c5WitnessArgs 1 rfl rfl).1 c5WitnessRule 0 _ rfl
  · exact (c5_off_environment_forces_off_variation_percentage "flag" "production"
      c5WitnessEnv c5WitnessArgs 1 rfl rfl).2 _ rfl

/-- A segment whose checks pass is always emitted, with the rules each
environment contributes in order. -/
theorem transformSegment_ok (env0 : String) (first : LaunchDarklySegment)
    (rest : List (String × LaunchDarklySegment)) (args : Args)
    (h1 : (((env0, first) :: rest).map (fun e => e.2)).any (fun s => s.unbounded) = false)
    (h2 : ((((env0, first) :: rest).map (fun e => e.2)).any
            (fun s => !(s.excluded.getD []).isEmpty) &&
          (((env0, first) :: rest).map (fun e => e.2)).any
            (fun s => !(s.excludedContexts.getD []).isEmpty)) = false) :
    transformSegment ((env0, first) :: rest) args =
      .ok { id := first.key, name := first.name, description := first.description,
            type := "rule_based",
            rules := (((env0, first) :: rest).map (fun e =>
              segmentEnvRules first.key e.1 e.2 args)).flatten } := by
  simp only [transformSegment, h1, h2]
  rfl

/-- C10: a segment whose environments declare excluded-id lists but no
excluded-context lists (or vice versa) is transformed successfully, and the
emitted segment is identical to the one produced after erasing both
exclusion fields: the output is built only from included ids,
included-context groups and translated targeting rules, so the exclusions
are silently dropped. -/
theorem c10_segment_exclusions_silently_dropped
    (ldSegmentByEnv : List (String × LaunchDarklySegment)) (args : Args)
    (hne : ldSegmentByEnv ≠ [])
    (hub : ∀ e ∈ ldSegmentByEnv, e.2.unbounded = false)
    (hx : (∀ e ∈ ldSegmentByEnv, e.2.excluded.getD [] = []) ∨
          (∀ e ∈ ldSegmentByEnv, e.2.excludedContexts.getD [] = [])) :
    transformSegment (ldSegmentByEnv.map (fun e => (e.1, eraseSegmentExclusions e.2))) args
      = transformSegment ldSegmentByEnv args ∧
    (∃ seg, transformSegment ldSegmentByEnv args = .ok seg) := by
  obtain ⟨⟨env0, first⟩, rest, rfl⟩ : ∃ a l, ldSegmentByEnv = a :: l := by
    cases ldSegmentByEnv with
    | nil => exact absurd rfl hne
    | cons a l => exact ⟨a, l, rfl⟩
  have hany1 : (((env0, first) :: rest).map (fun e => e.2)).any (fun s => s.unbounded) = false := by
    rw [List.any_eq_false]
    intro s hs
    rw [List.mem_map] at hs
    obtain ⟨e, he, rfl⟩ := hs
    simp [hub e he]
  have hany2 : ((((env0, first) :: rest).map (fun e => e.2)).any
        (fun s => !(s.excluded.getD []).isEmpty) &&
      (((env0, first) :: rest).map (fun e => e.2)).any
        (fun s => !(s.excludedContexts.getD []).isEmpty)) = false := by
    rcases hx with hx | hx
    · have : (((env0, first) :: rest).map (fun e => e.2)).any
          (fun s => !(s.excluded.getD []).isEmpty) = false := by
        rw [List.any_eq_false]
        intro s hs
        rw [List.mem_map] at hs
        obtain ⟨e, he, rfl⟩ := hs
        simp [hx e he]
      rw [this, Bool.false_and]
    · have : (((env0, first) :: rest).map (fun e => e.2)).any
          (fun s => !(s.excludedContexts.getD []).isEmpty) = false := by
        rw [List.any_eq_false]
        intro s hs
        rw [List.mem_map] at hs
        obtain ⟨e, he, rfl⟩ := hs
        simp [hx e he]
      rw [this, Bool.and_false]
  have erw : ((env0, first) :: rest).map (fun e => (e.1, eraseSegmentExclusions e.2)) =
      (env0, eraseSegmentExclusions first) :: rest.map (fun e => (e.1, eraseSegmentExclusions e.2)) := by
    rw [List.map_cons]
  have hany1e : (((env0, eraseSegmentExclusions first) ::
        rest.map (fun e => (e.1, eraseSegmentExclusions e.2))).map (fun e => e.2)).any
      (fun s => s.unbounded) = false := by
    rw [List.any_eq_false]
    intro s hs
    rw [List.mem_map] at hs
    obtain ⟨e, he, rfl⟩ := hs
    rcases List.mem_cons.mp he with he | he
    · cases he
      simpa [eraseSegmentExclusions] using hub (env0, first) (List.mem_cons_self _ _)
    · rw [List.mem_map] at he
      obtain ⟨e2, he2, rfl⟩ := he
      simpa [eraseSegmentExclusions] using hub e2 (List.mem_cons_of_mem _ he2)
  have hany2e : ((((env0, eraseSegmentExclusions first) ::
        rest.map (fun e => (e.1, eraseSegmentExclusions e.2))).map (fun e => e.2)).any
        (fun s => !(s.excluded.getD []).isEmpty) &&
      (((env0, eraseSegmentExclusions first) ::
        rest.map (fun e => (e.1, eraseSegmentExclusions e.2))).map (fun e => e.2)).any
        (fun s => !(s.excludedContexts.getD []).isEmpty)) = false := by
    have : (((env0, eraseSegmentExclusions first) ::
        rest.map (fun e => (e.1, eraseSegmentExclusions e.2))).map (fun e => e.2)).any
        (fun s => !(s.excluded.getD []).isEmpty) = false := by
      rw [List.any_eq_false]
      intro s hs
      rw [List.mem_map] at hs
      obtain ⟨e, he, rfl⟩ := hs
      rcases List.mem_cons.mp he with he | he
      · cases he
        simp [eraseSegmentExclusions]
      · rw [List.mem_map] at he
        obtain ⟨e2, he2, rfl⟩ := he
        simp [eraseSegmentExclusions]
    rw [this, Bool.false_and]
  constructor
  · rw [erw, transformSegment_ok env0 (eraseSegmentExclusions first) _ args hany1e hany2e,
       transformSegment_ok env0 first rest args hany1 hany2]
    simp only [List.map_cons, List.map_map]
    rfl
  · rw [transformSegment_ok env0 first rest args hany1 hany2]
    exact ⟨_, rfl⟩


def c10WitnessSegment : LaunchDarklySegment :=
  { key := "seg1", name := "Segment 1", description := none, rules := [],
    deleted := false, included := some ["a"], excluded := some ["u1"],
    includedContexts := none, excludedContexts := none, unbounded := false }

def c10WitnessArgs : Args :=
  { contextKindToUnitIDMapping := [], contextCustomAttributeMapping := [],
    environmentNameMapping := [], onlyEnvironments := none }

theorem c10_segment_exclusions_silently_dropped_witness :
    transformSegment ([("production", c10WitnessSegment)].map
        (fun e => (e.1, eraseSegmentExclusions e.2))) c10WitnessArgs =
      transformSegment [("production", c10WitnessSegment)] c10WitnessArgs ∧
    transformSegment [("production", c10WitnessSegment)] c10WitnessArgs =
      .ok { id := "seg1", name := "Segment 1", description := none,
            type := "rule_based",
            rules := [{ name := "(production) Included user IDs",
                        passPercentage := some 100,
                        conditions := [{ type := .user_id, operator := some .any,
                                         targetValue := some (.list [JSON.str "a"]) }],
                        environments := some ["production"] }] } := by
  have h := c10_segment_exclusions_silently_dropped [("production", c10WitnessSegment)]
    c10WitnessArgs (List.cons_ne_nil _ _)
    (by
      intro e he
      rw [List.mem_singleton] at he
      subst he
      rfl)
    (Or.inr (by
      intro e he
      rw [List.mem_singleton] at he
      subst he
      rfl))
  exact ⟨h.1, rfl⟩

/-- A prerequisite entry that resolves to an existing boolean flag that is
on in the given environment and whose required-variation index is in
range. -/
def prerequisiteResolvesOn (flagsByKey : List (String × LaunchDarklyFlag))
    (environmentName : String) (p : LDPrerequisite) : Prop :=
  ∃ pf, jsMapGet flagsByKey p.key = some pf ∧ pf.kind = "boolean" ∧
    (∃ pfe, recordGet (pf.environments.getD []) environmentName = some pfe ∧
      pfe.«on» = true) ∧
    (∃ pv, pf.variations.get? p.variation = some pv)

/-- The truthiness of the required variation value of a prerequisite, which
selects fails_gate versus passes_gate. -/
def requiredPrerequisiteValueTruthy (flagsByKey : List (String × LaunchDarklyFlag))
    (p : LDPrerequisite) : Bool :=
  match jsMapGet flagsByKey p.key with
  | some pf =>
    match pf.variations.get? p.variation with
    | some pv => jsTruthy pv.value
    | none => false
  | none => false

theorem transformPrerequisitesRuleLoop_all_on
    (flagKey environmentName : String) (offV : LDVariation) (isFlagBoolean : Bool)
    (flagsByKey : List (String × LaunchDarklyFlag)) (args : Args) :
    ∀ (prereqs : List LDPrerequisite) (acc : List StatsigRule),
      (∀ p ∈ prereqs, prerequisiteResolvesOn flagsByKey environmentName p) →
      transformPrerequisitesRuleLoop flagKey environmentName offV isFlagBoolean
          flagsByKey args prereqs acc =
        .ok (acc ++ prereqs.map (fun p =>
          mkPrerequisiteRule isFlagBoolean offV
            ("(" ++ environmentName ++ ") Imported prerequisite rule " ++ p.key)
            [{ type := if requiredPrerequisiteValueTruthy flagsByKey p then .fails_gate
                       else .passes_gate,
               targetValue := some (.str p.key) }]
            [envMapped args environmentName])) := by
  intro prereqs
  induction prereqs with
  | nil =>
    intro acc _
    simp [transformPrerequisitesRuleLoop]
  | cons p rest ih =>
    intro acc h
    obtain ⟨pf, hpf, hkind, ⟨pfe, hpfe, hon⟩, ⟨pv, hpv⟩⟩ := h p (List.mem_cons_self _ _)
    simp only [transformPrerequisitesRuleLoop, hpf, hkind, hpfe, hpv, hon,
      Option.map_some, Option.getD_some, bne_self_eq_false, Bool.false_eq_true,
      if_false, reduceCtorEq]
    rw [ih _ (fun q hq => h q (List.mem_cons_of_mem _ hq))]
    have ht : requiredPrerequisiteValueTruthy flagsByKey p = jsTruthy pv.value := by
      simp only [requiredPrerequisiteValueTruthy, hpf, hpv]
    simp [ht, List.append_assoc]
    intro hoff2
    rw [hon] at hoff2
    cases hoff2

theorem transformPrerequisitesRuleLoop_off
    (flagKey environmentName : String) (offV : LDVariation) (isFlagBoolean : Bool)
    (flagsByKey : List (String × LaunchDarklyFlag)) (args : Args) :
    ∀ (pre : List LDPrerequisite) (p : LDPrerequisite) (post : List LDPrerequisite)
      (acc : List StatsigRule),
      (∀ q ∈ pre, prerequisiteResolvesOn flagsByKey environmentName q) →
      (∃ pf, jsMapGet flagsByKey p.key = some pf ∧ pf.kind = "boolean" ∧
        ((recordGet (pf.environments.getD []) environmentName).map
          (fun e => e.«on»)).getD false = false) →
      transformPrerequisitesRuleLoop flagKey environmentName offV isFlagBoolean
          flagsByKey args (pre ++ p :: post) acc =
        .ok [mkPrerequisiteRule isFlagBoolean offV
          ("(" ++ environmentName ++ ") Imported prerequisite rule " ++ p.key)
          [{ type := .public }] [envMapped args environmentName]] := by
  intro pre
  induction pre with
  | nil =>
    intro p post acc _ hoffp
    obtain ⟨pf, hpf, hkind, hoffe⟩ := hoffp
    simp only [List.nil_append, transformPrerequisitesRuleLoop, hpf, hkind, hoffe,
      bne_self_eq_false, Bool.false_eq_true, if_false, reduceCtorEq, if_pos]
  | cons q rest ih =>
    intro p post acc h hoffp
    obtain ⟨pf, hpf, hkind, ⟨pfe, hpfe, hon⟩, ⟨pv, hpv⟩⟩ := h q (List.mem_cons_self _ _)
    simp only [List.cons_append, transformPrerequisitesRuleLoop, hpf, hkind, hpfe, hpv, hon,
      Option.map_some, Option.getD_some, bne_self_eq_false, Bool.false_eq_true,
      if_false, reduceCtorEq]
    rw [if_neg (by simp [hon])]
    simp only [List.append_eq]
    rw [ih p post _ (fun r hr => h r (List.mem_cons_of_mem _ hr)) hoffp]

/-- C6 (amended): with a declared off variation, when every declared
prerequisite resolves to an existing boolean flag that is on in the
environment, transformPrerequisitesRule emits exactly one rule per
prerequisite: its condition is fails_gate on the prerequisite key when the
required variation value is truthy and passes_gate when falsy, and it
serves the CURRENT flag off variation (for a boolean flag a pass percentage
of 100 when the off-variation value is truthy and 0 when falsy; for a
multivariate flag a single 100 percent variant returning the off-variation
value - the mkPrerequisiteRule mapping).  But as soon as the loop reaches a
prerequisite whose flag is off in (or absent from) the environment, it
returns a single unconditional public rule with the same off-variation
mapping, named after that prerequisite, discarding the rules of the
earlier prerequisites and never examining the later ones. -/
theorem c6_prerequisite_rules
    (flagKey environmentName : String) (offV : LDVariation) (isFlagBoolean : Bool)
    (flagsByKey : List (String × LaunchDarklyFlag)) (args : Args)
    (flagEnvironment : LDFlagEnvironment) :
    ((∀ p ∈ flagEnvironment.prerequisites.getD [],
        prerequisiteResolvesOn flagsByKey environmentName p) →
      transformPrerequisitesRule flagKey (some offV) flagEnvironment isFlagBoolean
          flagsByKey environmentName args =
        .ok ((flagEnvironment.prerequisites.getD []).map (fun p =>
          mkPrerequisiteRule isFlagBoolean offV
            ("(" ++ environmentName ++ ") Imported prerequisite rule " ++ p.key)
            [{ type := if requiredPrerequisiteValueTruthy flagsByKey p then .fails_gate
                       else .passes_gate,
               targetValue := some (.str p.key) }]
            [envMapped args environmentName]))) ∧
    (∀ pre p post, flagEnvironment.prerequisites.getD [] = pre ++ p :: post →
      (∀ q ∈ pre, prerequisiteResolvesOn flagsByKey environmentName q) →
      (∃ pf, jsMapGet flagsByKey p.key = some pf ∧ pf.kind = "boolean" ∧
        ((recordGet (pf.environments.getD []) environmentName).map
          (fun e => e.«on»)).getD false = false) →
      transformPrerequisitesRule flagKey (some offV) flagEnvironment isFlagBoolean
          flagsByKey environmentName args =
        .ok [mkPrerequisiteRule isFlagBoolean offV
          ("(" ++ environmentName ++ ") Imported prerequisite rule " ++ p.key)
          [{ type := .public }] [envMapped args environmentName]]) := by
  constructor
  · intro h
    rw [transformPrerequisitesRule]
    exact transformPrerequisitesRuleLoop_all_on flagKey environmentName offV isFlagBoolean
      flagsByKey args _ [] h
  · intro pre p post hsplit hpre hoffp
    rw [transformPrerequisitesRule, hsplit]
    exact transformPrerequisitesRuleLoop_off flagKey environmentName offV isFlagBoolean
      flagsByKey args pre p post [] hpre hoffp

def c6WitnessFlagsByKey : List (String × LaunchDarklyFlag) :=
  [("p1", { kind := "boolean", key := "p1", name := "P1", description := "",
            temporary := false, tags := [],
            variations := [{ name := "t", value := JSON.bool true },
                           { name := "f", value := JSON.bool false }],
            environments := some [("production",
              { «on» := true, targets := none, contextTargets := none,
                offVariation := some 1, rules := none, fallthrough := none,
                prerequisites := none })] })]

def c6WitnessEnv : LDFlagEnvironment :=
  { «on» := true, targets := none, contextTargets := none, offVariation := some 1,
    rules := none, fallthrough := none,
    prerequisites := some [{ key := "p1", variation := 0 }] }

def c6WitnessArgs : Args :=
  { contextKindToUnitIDMapping := [], contextCustomAttributeMapping := [],
    environmentNameMapping := [], onlyEnvironments := none }

theorem c6_prerequisite_rules_witness :
    transformPrerequisitesRule "flag" (some { name := "off", value := JSON.bool false })
        c6WitnessEnv true c6WitnessFlagsByKey "production" c6WitnessArgs =
      .ok [mkPrerequisiteRule true { name := "off", value := JSON.bool false }
        "(production) Imported prerequisite rule p1"
        [{ type := .fails_gate, targetValue := some (.str "p1") }] ["production"]] := by
  have h := (c6_prerequisite_rules "flag" "production"
      { name := "off", value := JSON.bool false } true c6WitnessFlagsByKey
      c6WitnessArgs c6WitnessEnv).1
    (by
      intro p hp
      rw [List.mem_singleton.mp hp]  -- hmm prereq list getD
      exact ⟨_, rfl, rfl, ⟨_, rfl, rfl⟩, ⟨_, rfl⟩⟩)
  exact h

def c6CexFlagsByKey : List (String × LaunchDarklyFlag) :=
  [("p1", { kind := "boolean", key := "p1", name := "P1", description := "",
            temporary := false, tags := [],
            variations := [{ name := "t", value := JSON.bool true },
                           { name := "f", value := JSON.bool false }],
            environments := some [("production",
              { «on» := true, targets := none, contextTargets := none,
                offVariation := some 1, rules := none, fallthrough := none,
                prerequisites := none })] }),
   ("p2", { kind := "boolean", key := "p2", name := "P2", description := "",
            temporary := false, tags := [],
            variations := [{ name := "t", value := JSON.bool true },
                           { name := "f", value := JSON.bool false }],
            environments := some [("production",
              { «on» := false, targets := none, contextTargets := none,
                offVariation := some 1, rules := none, fallthrough := none,
                prerequisites := none })] })]

def c6CexEnv : LDFlagEnvironment :=
  { «on» := true, targets := none, contextTargets := none, offVariation := some 1,
    rules := none, fallthrough := none,
    prerequisites := some [{ key := "p1", variation := 0 }, { key := "p2", variation := 0 }] }

/-- C6 counterexample: two declared prerequisites, both resolving to
existing boolean flags (so the claim premise holds: p1 is on and p2 is off
in the environment), yet the transformer returns a single rule, not one
rule per prerequisite, and the rule for p1 is discarded. -/
theorem c6_counterexample :
    transformPrerequisitesRule "flag" (some { name := "off", value := JSON.bool false })
        c6CexEnv true c6CexFlagsByKey "production"
        { contextKindToUnitIDMapping := [], contextCustomAttributeMapping := [],
          environmentNameMapping := [], onlyEnvironments := none } =
      .ok [{ name := "(production) Imported prerequisite rule p2",
             passPercentage := some 0,
             conditions := [{ type := .public }],
             environments := some ["production"] }] ∧
    (c6CexEnv.prerequisites.getD []).length = 2 ∧
    (jsMapGet c6CexFlagsByKey "p1").isSome = true ∧
    (jsMapGet c6CexFlagsByKey "p2").isSome = true ∧
    ((jsMapGet c6CexFlagsByKey "p1").map (fun f => f.kind)).getD "" = "boolean" ∧
    ((jsMapGet c6CexFlagsByKey "p2").map (fun f => f.kind)).getD "" = "boolean" := by
  refine ⟨rfl, rfl, rfl, rfl, rfl, rfl⟩

-- ---------------------------------------------------------------------------
-- Properties of the dependency sorter
-- ---------------------------------------------------------------------------

theorem jsSetOfList_go_mem (l : List String) :
    ∀ (acc : List String) (x : String),
      (x ∈ l.foldl (fun acc a => if acc.contains a then acc else acc ++ [a]) acc ↔
        x ∈ acc ∨ x ∈ l) := by
  induction l with
  | nil => intro acc x; simp
  | cons a t ih =>
    intro acc x
    by_cases hc : acc.contains a
    · simp only [List.foldl_cons, if_pos hc, ih]
      constructor
      · rintro (h | h)
        · exact Or.inl h
        · exact Or.inr (List.mem_cons_of_mem _ h)
      · rintro (h | h)
        · exact Or.inl h
        · rcases List.mem_cons.mp h with rfl | h
          · exact Or.inl (by simpa using hc)
          · exact Or.inr h
    · simp only [List.foldl_cons, if_neg hc, ih]
      constructor
      · rintro (h | h)
        · rcases List.mem_append.mp h with h | h
          · exact Or.inl h
          · rw [List.mem_singleton] at h
            exact Or.inr (h ▸ List.mem_cons_self _ _)
        · exact Or.inr (List.mem_cons_of_mem _ h)
      · rintro (h | h)
        · exact Or.inl (List.mem_append.mpr (Or.inl h))
        · rcases List.mem_cons.mp h with rfl | h
          · exact Or.inl (List.mem_append.mpr (Or.inr (List.mem_singleton.mpr rfl)))
          · exact Or.inr h

theorem jsSetOfList_mem (l : List String) (x : String) :
    x ∈ jsSetOfList l ↔ x ∈ l := by
  rw [jsSetOfList, jsSetOfList_go_mem]
  simp

theorem configMapGet_getId (getId : α → String) (configs : List α) (cid : String)
    (c : α) (h : configMapGet getId configs cid = some c) : getId c = cid := by
  have := List.find?_some h
  exact eq_of_beq this

theorem configMapGet_mem (getId : α → String) (configs : List α) (cid : String)
    (c : α) (h : configMapGet getId configs cid = some c) : c ∈ configs := by
  have := List.mem_of_find?_eq_some h
  exact (List.mem_reverse).mp this

theorem configMapGet_exists_of_mem (getId : α → String) (configs : List α) (c : α)
    (h : c ∈ configs) : ∃ c₂, configMapGet getId configs (getId c) = some c₂ := by
  cases h2 : configMapGet getId configs (getId c) with
  | some c₂ => exact ⟨c₂, rfl⟩
  | none =>
    rw [configMapGet] at h2
    have := List.find?_eq_none.mp h2 c (List.mem_reverse.mpr h)
    simp at this

theorem topoFindEligible_mem (lookup : String → Option α) (deps : String → List String)
    (remaining : List String) (cid : String)
    (h : topoFindEligible lookup deps remaining = some cid) : cid ∈ remaining :=
  List.mem_of_find?_eq_some h

theorem topoSortGo_perm (lookup : String → Option α) (deps : String → List String) :
    ∀ (fuel : Nat) (remaining : List String) (out : List α),
      topoSortGo lookup deps fuel remaining = some out →
      out.Perm (remaining.filterMap lookup) := by
  intro fuel
  induction fuel with
  | zero =>
    intro remaining out h
    rw [topoSortGo] at h
    split at h
    · cases h
      rename_i he
      rw [List.isEmpty_iff] at he
      rw [he]
      exact List.Perm.refl _
    · cases h
  | succ fuel ih =>
    intro remaining out h
    rw [topoSortGo] at h
    split at h
    · cases h
      rename_i he
      rw [List.isEmpty_iff] at he
      rw [he]
      exact List.Perm.refl _
    · split at h
      · cases h
      · rename_i cid hf
        split at h
        · cases h
        · rename_i config hl
          cases hr : topoSortGo lookup deps fuel (remaining.erase cid) with
          | none => rw [hr] at h; cases h
          | some rest =>
            rw [hr] at h
            cases h
            have hcid : cid ∈ remaining := topoFindEligible_mem _ _ _ _ hf
            have hperm1 : remaining.Perm (cid :: remaining.erase cid) :=
              List.perm_cons_erase hcid
            have hperm2 := ih _ _ hr
            have hstep : (remaining.filterMap lookup).Perm
                ((cid :: remaining.erase cid).filterMap lookup) :=
              hperm1.filterMap lookup
            have hred : (cid :: remaining.erase cid).filterMap lookup =
                config :: (remaining.erase cid).filterMap lookup := by
              rw [List.filterMap_cons, hl]
            rw [hred] at hstep
            exact (hperm2.cons config).trans hstep.symm

theorem deleteScan_gatesWO_mono (st : StatsigState) (importTag : String) :
    ∀ (names : List String) (acc : DeleteScan) (x : String),
      x ∈ acc.existingGatesWithoutImportTag →
      x ∈ (names.foldl (deleteScanStep st importTag) acc).existingGatesWithoutImportTag := by
  intro names
  induction names with
  | nil => intro acc x hx; exact hx
  | cons n t ih =>
    intro acc x hx
    rw [List.foldl_cons]
    apply ih
    rw [deleteScanStep]
    cases getStatsigGate st n with
    | some gate =>
      dsimp only
      split
      · exact List.mem_append.mpr (Or.inl hx)
      · exact hx
    | none =>
      cases getStatsigDynamicConfig st n with
      | some dc => exact hx
      | none =>
        cases getStatsigSegment st n with
        | some seg => exact hx
        | none => exact hx

theorem deleteScan_gates_mono (st : StatsigState) (importTag : String) :
    ∀ (names : List String) (acc : DeleteScan) (g : StatsigGate),
      g ∈ acc.existingGates →
      g ∈ (names.foldl (deleteScanStep st importTag) acc).existingGates := by
  intro names
  induction names with
  | nil => intro acc g hg; exact hg
  | cons n t ih =>
    intro acc g hg
    rw [List.foldl_cons]
    apply ih
    rw [deleteScanStep]
    cases getStatsigGate st n with
    | some gate =>
      dsimp only
      exact List.mem_append.mpr (Or.inl hg)
    | none =>
      cases getStatsigDynamicConfig st n with
      | some dc => exact hg
      | none =>
        cases getStatsigSegment st n with
        | some seg => exact hg
        | none => exact hg

theorem deleteScan_gatesWO_mem (st : StatsigState) (importTag : String)
    (names : List String) (n : String) (g : StatsigGate)
    (hn : n ∈ names) (hg : getStatsigGate st n = some g)
    (ht : tagsInclude g.tags importTag = false) :
    ∀ (acc : DeleteScan),
      g.id ∈ (names.foldl (deleteScanStep st importTag) acc).existingGatesWithoutImportTag := by
  induction names with
  | nil => cases hn
  | cons m t ih =>
    intro acc
    rcases List.mem_cons.mp hn with rfl | hn2
    · rw [List.foldl_cons]
      apply deleteScan_gatesWO_mono
      rw [deleteScanStep, hg]
      dsimp only
      rw [ht]
      simp
    · rw [List.foldl_cons]
      exact ih hn2 _

theorem deleteScan_gates_mem (st : StatsigState) (importTag : String)
    (names : List String) (n : String) (g : StatsigGate)
    (hn : n ∈ names) (hg : getStatsigGate st n = some g) :
    ∀ (acc : DeleteScan),
      g ∈ (names.foldl (deleteScanStep st importTag) acc).existingGates := by
  induction names with
  | nil => cases hn
  | cons m t ih =>
    intro acc
    rcases List.mem_cons.mp hn with rfl | hn2
    · rw [List.foldl_cons]
      apply deleteScan_gates_mono
      rw [deleteScanStep, hg]
      dsimp only
      exact List.mem_append.mpr (Or.inr (List.mem_singleton.mpr rfl))
    · rw [List.foldl_cons]
      exact ih hn2 _

theorem reorderGatesByDependencies_mem (gates : List StatsigGate)
    (out : List StatsigGate) (g : StatsigGate)
    (h : reorderGatesByDependencies gates = some out) (hg : g ∈ gates) :
    g.id ∈ out.map (fun g => g.id) := by
  rw [reorderGatesByDependencies] at h
  have hperm := topoSortGo_perm _ _ _ _ _ h
  have hin : g.id ∈ jsSetOfList (gates.map (fun g => g.id)) := by
    rw [jsSetOfList_mem]
    exact List.mem_map.mpr ⟨g, hg, rfl⟩
  obtain ⟨g₂, hget⟩ := configMapGet_exists_of_mem (fun g => g.id) gates g hg
  have hgmem : g₂ ∈ (jsSetOfList (gates.map (fun g => g.id))).filterMap
      (configMapGet (fun g => g.id) gates) :=
    List.mem_filterMap.mpr ⟨g.id, hin, hget⟩
  have : g₂ ∈ out := hperm.mem_iff.mpr hgmem
  have hid : g₂.id = g.id := configMapGet_getId (fun g => g.id) gates g.id g₂ hget
  exact List.mem_map.mpr ⟨g₂, this, hid⟩

theorem deleteScan_dcWO_mono (st : StatsigState) (importTag : String) :
    ∀ (names : List String) (acc : DeleteScan) (x : String),
      x ∈ acc.existingDynamicConfigsWithoutImportTag →
      x ∈ (names.foldl (deleteScanStep st importTag)
        acc).existingDynamicConfigsWithoutImportTag := by
  intro names
  induction names with
  | nil => intro acc x hx; exact hx
  | cons n t ih =>
    intro acc x hx
    rw [List.foldl_cons]
    apply ih
    rw [deleteScanStep]
    cases getStatsigGate st n with
    | some gate => exact hx
    | none =>
      cases getStatsigDynamicConfig st n with
      | some dc =>
        dsimp only
        split
        · exact List.mem_append.mpr (Or.inl hx)
        · exact hx
      | none =>
        cases getStatsigSegment st n with
        | some seg => exact hx
        | none => exact hx

theorem deleteScan_segWO_mono (st : StatsigState) (importTag : String) :
    ∀ (names : List String) (acc : DeleteScan) (x : String),
      x ∈ acc.existingSegmentsWithoutImportTag →
      x ∈ (names.foldl (deleteScanStep st importTag)
        acc).existingSegmentsWithoutImportTag := by
  intro names
  induction names with
  | nil => intro acc x hx; exact hx
  | cons n t ih =>
    intro acc x hx
    rw [List.foldl_cons]
    apply ih
    rw [deleteScanStep]
    cases getStatsigGate st n with
    | some gate => exact hx
    | none =>
      cases getStatsigDynamicConfig st n with
      | some dc => exact hx
      | none =>
        cases getStatsigSegment st n with
        | some seg =>
          dsimp only
          split
          · exact List.mem_append.mpr (Or.inl hx)
          · exact hx
        | none => exact hx

theorem deleteScan_dcNames_mono (st : StatsigState) (importTag : String) :
    ∀ (names : List String) (acc : DeleteScan) (x : String),
      x ∈ acc.existingDynamicConfigNames →
      x ∈ (names.foldl (deleteScanStep st importTag) acc).existingDynamicConfigNames := by
  intro names
  induction names with
  | nil => intro acc x hx; exact hx
  | cons n t ih =>
    intro acc x hx
    rw [List.foldl_cons]
    apply ih
    rw [deleteScanStep]
    cases getStatsigGate st n with
    | some gate => exact hx
    | none =>
      cases getStatsigDynamicConfig st n with
      | some dc =>
        dsimp only
        exact List.mem_append.mpr (Or.inl hx)
      | none =>
        cases getStatsigSegment st n with
        | some seg => exact hx
        | none => exact hx

theorem deleteScan_segNames_mono (st : StatsigState) (importTag : String) :
    ∀ (names : List String) (acc : DeleteScan) (x : String),
      x ∈ acc.existingSegmentNames →
      x ∈ (names.foldl (deleteScanStep st importTag) acc).existingSegmentNames := by
  intro names
  induction names with
  | nil => intro acc x hx; exact hx
  | cons n t ih =>
    intro acc x hx
    rw [List.foldl_cons]
    apply ih
    rw [deleteScanStep]
    cases getStatsigGate st n with
    | some gate => exact hx
    | none =>
      cases getStatsigDynamicConfig st n with
      | some dc => exact hx
      | none =>
        cases getStatsigSegment st n with
        | some seg =>
          dsimp only
          exact List.mem_append.mpr (Or.inl hx)
        | none => exact hx

theorem deleteScan_dcWO_mem (st : StatsigState) (importTag : String)
    (names : List String) (n : String) (d : StatsigDynamicConfig)
    (hn : n ∈ names) (hg0 : getStatsigGate st n = none)
    (hd : getStatsigDynamicConfig st n = some d)
    (ht : tagsInclude d.tags importTag = false) :
    ∀ (acc : DeleteScan),
      n ∈ (names.foldl (deleteScanStep st importTag)
        acc).existingDynamicConfigsWithoutImportTag := by
  induction names with
  | nil => cases hn
  | cons m t ih =>
    intro acc
    rcases List.mem_cons.mp hn with rfl | hn2
    · rw [List.foldl_cons]
      apply deleteScan_dcWO_mono
      rw [deleteScanStep, hg0]
      dsimp only
      rw [hd]
      dsimp only
      rw [ht]
      simp
    · rw [List.foldl_cons]
      exact ih hn2 _

theorem deleteScan_segWO_mem (st : StatsigState) (importTag : String)
    (names : List String) (n : String) (sg : StatsigSegment)
    (hn : n ∈ names) (hg0 : getStatsigGate st n = none)
    (hd0 : getStatsigDynamicConfig st n = none)
    (hs : getStatsigSegment st n = some sg)
    (ht : tagsInclude sg.tags importTag = false) :
    ∀ (acc : DeleteScan),
      n ∈ (names.foldl (deleteScanStep st importTag)
        acc).existingSegmentsWithoutImportTag := by
  induction names with
  | nil => cases hn
  | cons m t ih =>
    intro acc
    rcases List.mem_cons.mp hn with rfl | hn2
    · rw [List.foldl_cons]
      apply deleteScan_segWO_mono
      rw [deleteScanStep, hg0]
      dsimp only
      rw [hd0]
      dsimp only
      rw [hs]
      dsimp only
      rw [ht]
      simp
    · rw [List.foldl_cons]
      exact ih hn2 _

theorem deleteScan_dcNames_mem (st : StatsigState) (importTag : String)
    (names : List String) (n : String) (d : StatsigDynamicConfig)
    (hn : n ∈ names) (hg0 : getStatsigGate st n = none)
    (hd : getStatsigDynamicConfig st n = some d) :
    ∀ (acc : DeleteScan),
      n ∈ (names.foldl (deleteScanStep st importTag) acc).existingDynamicConfigNames := by
  induction names with
  | nil => cases hn
  | cons m t ih =>
    intro acc
    rcases List.mem_cons.mp hn with rfl | hn2
    · rw [List.foldl_cons]
      apply deleteScan_dcNames_mono
      rw [deleteScanStep, hg0]
      dsimp only
      rw [hd]
      dsimp only
      exact List.mem_append.mpr (Or.inr (List.mem_singleton.mpr rfl))
    · rw [List.foldl_cons]
      exact ih hn2 _

theorem deleteScan_segNames_mem (st : StatsigState) (importTag : String)
    (names : List String) (n : String) (sg : StatsigSegment)
    (hn : n ∈ names) (hg0 : getStatsigGate st n = none)
    (hd0 : getStatsigDynamicConfig st n = none)
    (hs : getStatsigSegment st n = some sg) :
    ∀ (acc : DeleteScan),
      n ∈ (names.foldl (deleteScanStep st importTag) acc).existingSegmentNames := by
  induction names with
  | nil => cases hn
  | cons m t ih =>
    intro acc
    rcases List.mem_cons.mp hn with rfl | hn2
    · rw [List.foldl_cons]
      apply deleteScan_segNames_mono
      rw [deleteScanStep, hg0]
      dsimp only
      rw [hd0]
      dsimp only
      rw [hs]
      dsimp only
      exact List.mem_append.mpr (Or.inr (List.mem_singleton.mpr rfl))
    · rw [List.foldl_cons]
      exact ih hn2 _

/-- C2 (amended): an untagged same-identifier configuration does NOT block
only its own identifier, and only the configuration each identifier
RESOLVES to counts (a gate shadows a dynamic config, which shadows a
segment, per the else-if scan).  Whenever deleteExistingImportedConfigs
returns, (1) a conflict outcome deletes nothing at all, (2-4) every
requested identifier whose resolved configuration (gate, else dynamic
config, else segment) lacks the import tag forces the conflict outcome for
the whole batch and is reported in the conflict list of that kind, and (5) only
when the whole batch is conflict-free is every resolved configuration of
every kind deleted. -/
theorem c2_untagged_blocks_whole_batch (configNames : List String)
    (importTag : String) (st : StatsigState) (r : DeleteResult)
    (h : deleteExistingImportedConfigs configNames importTag st = some r) :
    (r.ok = false → r.deletedSegments = [] ∧ r.deletedGates = [] ∧
      r.deletedDynamicConfigs = []) ∧
    (∀ n ∈ configNames, ∀ g, getStatsigGate st n = some g →
      tagsInclude g.tags importTag = false →
      r.ok = false ∧ g.id ∈ r.existingGatesWithoutImportTag) ∧
    (∀ n ∈ configNames, getStatsigGate st n = none →
      ∀ d, getStatsigDynamicConfig st n = some d →
      tagsInclude d.tags importTag = false →
      r.ok = false ∧ n ∈ r.existingDynamicConfigsWithoutImportTag) ∧
    (∀ n ∈ configNames, getStatsigGate st n = none →
      getStatsigDynamicConfig st n = none →
      ∀ sg, getStatsigSegment st n = some sg →
      tagsInclude sg.tags importTag = false →
      r.ok = false ∧ n ∈ r.existingSegmentsWithoutImportTag) ∧
    (r.ok = true →
      (∀ n ∈ configNames, ∀ g, getStatsigGate st n = some g →
        g.id ∈ r.deletedGates) ∧
      (∀ n ∈ configNames, getStatsigGate st n = none →
        ∀ d, getStatsigDynamicConfig st n = some d →
        n ∈ r.deletedDynamicConfigs) ∧
      (∀ n ∈ configNames, getStatsigGate st n = none →
        getStatsigDynamicConfig st n = none →
        ∀ sg, getStatsigSegment st n = some sg →
        n ∈ r.deletedSegments)) := by
  rw [deleteExistingImportedConfigs] at h
  refine ⟨?_, ?_, ?_, ?_, ?_⟩
  · intro hok
    split at h
    · injection h with h1
      rw [← h1]
      exact ⟨rfl, rfl, rfl⟩
    · split at h
      · cases h
      · injection h with h1
        rw [← h1] at hok
        cases hok
  · intro n hn g hg ht
    have hmem : g.id ∈ (configNames.foldl (deleteScanStep st importTag)
        emptyDeleteScan).existingGatesWithoutImportTag :=
      deleteScan_gatesWO_mem st importTag configNames n g hn hg ht _
    split at h
    · injection h with h1
      rw [← h1]
      exact ⟨rfl, hmem⟩
    · rename_i hc
      rw [Bool.not_eq_true] at hc
      rw [Bool.or_eq_false_iff, Bool.or_eq_false_iff] at hc
      have hempty := hc.1.1
      rw [Bool.not_eq_false'] at hempty
      rw [List.isEmpty_iff] at hempty
      rw [hempty] at hmem
      cases hmem
  · intro n hn hg0 d hd ht
    have hmem : n ∈ (configNames.foldl (deleteScanStep st importTag)
        emptyDeleteScan).existingDynamicConfigsWithoutImportTag :=
      deleteScan_dcWO_mem st importTag configNames n d hn hg0 hd ht _
    split at h
    · injection h with h1
      rw [← h1]
      exact ⟨rfl, hmem⟩
    · rename_i hc
      rw [Bool.not_eq_true] at hc
      rw [Bool.or_eq_false_iff, Bool.or_eq_false_iff] at hc
      have hempty := hc.1.2
      rw [Bool.not_eq_false'] at hempty
      rw [List.isEmpty_iff] at hempty
      rw [hempty] at hmem
      cases hmem
  · intro n hn hg0 hd0 sg hs ht
    have hmem : n ∈ (configNames.foldl (deleteScanStep st importTag)
        emptyDeleteScan).existingSegmentsWithoutImportTag :=
      deleteScan_segWO_mem st importTag configNames n sg hn hg0 hd0 hs ht _
    split at h
    · injection h with h1
      rw [← h1]
      exact ⟨rfl, hmem⟩
    · rename_i hc
      rw [Bool.not_eq_true] at hc
      rw [Bool.or_eq_false_iff, Bool.or_eq_false_iff] at hc
      have hempty := hc.2
      rw [Bool.not_eq_false'] at hempty
      rw [List.isEmpty_iff] at hempty
      rw [hempty] at hmem
      cases hmem
  · intro hok
    split at h
    · injection h with h1
      rw [← h1] at hok
      cases hok
    · split at h
      · cases h
      · rename_i sorted hre
        injection h with h1
        refine ⟨?_, ?_, ?_⟩
        · intro n hn g hg
          have hmem : g ∈ (configNames.foldl (deleteScanStep st importTag)
              emptyDeleteScan).existingGates :=
            deleteScan_gates_mem st importTag configNames n g hn hg _
          rw [← h1]
          exact reorderGatesByDependencies_mem _ _ _ hre hmem
        · intro n hn hg0 d hd
          rw [← h1]
          exact deleteScan_dcNames_mem st importTag configNames n d hn hg0 hd _
        · intro n hn hg0 hd0 sg hs
          rw [← h1]
          exact deleteScan_segNames_mem st importTag configNames n sg hn hg0 hd0 hs _

def c2GateA : StatsigGate := { id := "a", name := "A", tags := some ["T"], rules := [] }

def c2GateB : StatsigGate := { id := "b", name := "B", rules := [] }

def c2DC : StatsigDynamicConfig := { id := "d", name := "D", rules := [] }

def c2Seg : StatsigSegment := { id := "s", name := "S", type := "rule_based", rules := [] }

def c2State : StatsigState :=
  { gates := [c2GateA, c2GateB], dynamicConfigs := [c2DC], segments := [c2Seg] }

def c2Result : DeleteResult :=
  { ok := false, existingGatesWithoutImportTag := ["b"],
    existingDynamicConfigsWithoutImportTag := ["d"],
    existingSegmentsWithoutImportTag := ["s"],
    deletedSegments := [], deletedGates := [], deletedDynamicConfigs := [] }

theorem c2_untagged_blocks_whole_batch_witness :
    deleteExistingImportedConfigs ["a", "b", "d", "s"] "T" c2State = some c2Result ∧
    c2Result.ok = false ∧ c2Result.deletedGates = [] ∧
    c2Result.deletedDynamicConfigs = [] ∧ c2Result.deletedSegments = [] ∧
    "b" ∈ c2Result.existingGatesWithoutImportTag ∧
    "d" ∈ c2Result.existingDynamicConfigsWithoutImportTag ∧
    "s" ∈ c2Result.existingSegmentsWithoutImportTag := by
  have h := c2_untagged_blocks_whole_batch ["a", "b", "d", "s"] "T" c2State c2Result rfl
  have hb := h.2.1 "b" (by simp) c2GateB rfl rfl
  have hd := h.2.2.1 "d" (by simp) rfl c2DC rfl rfl
  have hs := h.2.2.2.1 "s" (by simp) rfl rfl c2Seg rfl rfl
  obtain ⟨h1, h2, h3⟩ := h.1 hb.1
  exact ⟨rfl, hb.1, h2, h3, h1, hb.2, hd.2, hs.2⟩

def c2ShadowSeg : StatsigSegment := { id := "a", name := "S2", type := "rule_based", rules := [] }

def c2ShadowState : StatsigState :=
  { gates := [c2GateA], dynamicConfigs := [], segments := [c2ShadowSeg] }

def c2ShadowResult : DeleteResult :=
  { ok := true, existingGatesWithoutImportTag := [],
    existingDynamicConfigsWithoutImportTag := [],
    existingSegmentsWithoutImportTag := [],
    deletedSegments := [], deletedGates := ["a"], deletedDynamicConfigs := [] }

/-- C2 counterexample to the literal claim, in two parts.  First, with gate
a tagged and gate b untagged, requesting deletion of both leaves BOTH gates
undeleted (deletedGates is empty and the call reports conflicts), although
a carries the tag, so an untagged configuration does not block only its own
identifier.  Second, an untagged segment with the same identifier as a
tagged gate neither blocks nor is reported nor deleted: the gate shadows it
in the else-if scan and the call succeeds, deleting only the gate. -/
theorem c2_counterexample :
    (getStatsigGate c2State "a" = some c2GateA ∧
      tagsInclude c2GateA.tags "T" = true ∧
      getStatsigGate c2State "b" = some c2GateB ∧
      tagsInclude c2GateB.tags "T" = false ∧
      deleteExistingImportedConfigs ["a", "b"] "T" c2State =
        some { ok := false, existingGatesWithoutImportTag := ["b"],
               existingDynamicConfigsWithoutImportTag := [],
               existingSegmentsWithoutImportTag := [],
               deletedSegments := [], deletedGates := [],
               deletedDynamicConfigs := [] }) ∧
    (getStatsigSegment c2ShadowState "a" = some c2ShadowSeg ∧
      tagsInclude c2ShadowSeg.tags "T" = false ∧
      deleteExistingImportedConfigs ["a"] "T" c2ShadowState = some c2ShadowResult ∧
      c2ShadowResult.ok = true ∧
      c2ShadowResult.existingSegmentsWithoutImportTag = [] ∧
      c2ShadowResult.deletedSegments = []) :=
  ⟨⟨rfl, rfl, rfl, rfl, rfl⟩, ⟨rfl, rfl, rfl, rfl, rfl, rfl⟩⟩

-- ---------------------------------------------------------------------------
-- Properties of the override-building block of transformFlagToGate
-- ---------------------------------------------------------------------------

/-- The key by which the source merges overrides: overrides.find compares
unitID and environment. -/
def overrideKeyMatch (u environment : String) (o : StatsigOverride) : Bool :=
  o.unitID == u && o.environment == some environment

def findOverride (overrides : List StatsigOverride) (u environment : String) :
    Option StatsigOverride :=
  overrides.find? (overrideKeyMatch u environment)

/-- The unit id the override-target loop resolves for a target entry: userID
for the default context kind, the mapped unit id otherwise, none exactly
when the loop reports unit_id_not_mapped. -/
def resolvedUnitID (args : Args) (t : LDTarget) : Option String :=
  let contextKind := t.contextKind.getD "user"
  let unitID : Option String :=
    if contextKind == "user" then some "userID"
    else recordGet args.contextKindToUnitIDMapping contextKind
  if jsFalsyOptStr unitID then none else unitID

/-- The projection of one override-target step onto the override stored at a
fixed (unit id, environment) key. -/
def overrideAccStep (args : Args) (environment u : String)
    (cur : Option StatsigOverride) (t : LDTarget) : Option StatsigOverride :=
  if t.values.isEmpty then cur
  else
    match resolvedUnitID args t with
    | none => cur
    | some u2 =>
      if u2 == u then
        some (applyOverrideTarget t (cur.getD
          { environment := some environment, unitID := u,
            passingIDs := [], failingIDs := [] }))
      else cur

theorem applyOverrideTarget_unitID (t : LDTarget) (o : StatsigOverride) :
    (applyOverrideTarget t o).unitID = o.unitID := by
  rw [applyOverrideTarget]
  split
  · rfl
  · split <;> rfl

theorem applyOverrideTarget_environment (t : LDTarget) (o : StatsigOverride) :
    (applyOverrideTarget t o).environment = o.environment := by
  rw [applyOverrideTarget]
  split
  · rfl
  · split <;> rfl

theorem overrideKeyMatch_applyOverrideTarget (u environment : String) (t : LDTarget)
    (o : StatsigOverride) :
    overrideKeyMatch u environment (applyOverrideTarget t o) =
      overrideKeyMatch u environment o := by
  rw [overrideKeyMatch, overrideKeyMatch, applyOverrideTarget_unitID,
    applyOverrideTarget_environment]

theorem findIdx?_ge (p : α → Bool) :
    ∀ (l : List α) (n i : Nat), l.findIdx? p n = some i → n ≤ i := by
  intro l
  induction l with
  | nil => intro n i h; simp [List.findIdx?] at h
  | cons a t ih =>
    intro n i h
    rw [List.findIdx?_cons] at h
    split at h
    · injection h with h1
      omega
    · have := ih (n + 1) i h
      omega

theorem find?_isSome_of_findIdx? (p : α → Bool) :
    ∀ (l : List α) (n i : Nat), l.findIdx? p n = some i →
      ∃ a, l.find? p = some a := by
  intro l
  induction l with
  | nil => intro n i h; simp [List.findIdx?] at h
  | cons a t ih =>
    intro n i h
    rw [List.findIdx?_cons] at h
    split at h
    · rename_i hpa
      exact ⟨a, List.find?_cons_of_pos _ hpa⟩
    · rename_i hpa
      obtain ⟨b, hb⟩ := ih (n + 1) i h
      exact ⟨b, by rw [List.find?_cons_of_neg _ hpa]; exact hb⟩

theorem find?_eq_none_of_findIdx?_none (p : α → Bool) (l : List α)
    (h : l.findIdx? p = none) : l.find? p = none := by
  rw [List.findIdx?_eq_none_iff] at h
  rw [List.find?_eq_none]
  intro x hx
  rw [h x hx]
  simp

theorem listModify_find?_of_findIdx? (p : α → Bool) (f : α → α)
    (hp : ∀ a, p (f a) = p a) :
    ∀ (l : List α) (n i : Nat), l.findIdx? p n = some i →
      (listModify l (i - n) f).find? p = (l.find? p).map f := by
  intro l
  induction l with
  | nil => intro n i h; simp [List.findIdx?] at h
  | cons a t ih =>
    intro n i h
    rw [List.findIdx?_cons] at h
    split at h
    · rename_i hpa
      injection h with h1
      rw [← h1, Nat.sub_self]
      show (f a :: t).find? p = ((a :: t).find? p).map f
      rw [List.find?_cons_of_pos _ (by rw [hp]; exact hpa),
        List.find?_cons_of_pos _ hpa]
      rfl
    · rename_i hpa
      have hge := findIdx?_ge p t (n + 1) i h
      have hsub : i - n = (i - (n + 1)) + 1 := by omega
      rw [hsub]
      show (a :: listModify t (i - (n + 1)) f).find? p = ((a :: t).find? p).map f
      rw [List.find?_cons_of_neg _ hpa, List.find?_cons_of_neg _ hpa]
      exact ih (n + 1) i h

theorem listModify_find?_other (p q : α → Bool) (f : α → α)
    (hq : ∀ a, q (f a) = q a)
    (hpq : ∀ a, p a = true → q a = false) :
    ∀ (l : List α) (n i : Nat), l.findIdx? p n = some i →
      (listModify l (i - n) f).find? q = l.find? q := by
  intro l
  induction l with
  | nil => intro n i h; simp [List.findIdx?] at h
  | cons a t ih =>
    intro n i h
    rw [List.findIdx?_cons] at h
    split at h
    · rename_i hpa
      injection h with h1
      rw [← h1, Nat.sub_self]
      show (f a :: t).find? q = (a :: t).find? q
      have hqa : q a = false := hpq a hpa
      rw [List.find?_cons_of_neg _ (by rw [hq]; simp [hqa]),
        List.find?_cons_of_neg _ (by simp [hqa])]
    · rename_i hpa
      have hge := findIdx?_ge p t (n + 1) i h
      have hsub : i - n = (i - (n + 1)) + 1 := by omega
      rw [hsub]
      show (a :: listModify t (i - (n + 1)) f).find? q = (a :: t).find? q
      by_cases hqa : q a = true
      · rw [List.find?_cons_of_pos _ hqa, List.find?_cons_of_pos _ hqa]
      · rw [List.find?_cons_of_neg _ hqa, List.find?_cons_of_neg _ hqa]
        exact ih (n + 1) i h

theorem find?_append_of_neg (q : α → Bool) (l : List α) (x : α) (hx : q x = false) :
    (l ++ [x]).find? q = l.find? q := by
  rw [List.find?_append]
  cases h : l.find? q
  · simp [List.find?, hx]
  · simp

theorem find?_append_some (q : α → Bool) (l : List α) (x : α)
    (hl : l.find? q = none) (hx : q x = true) :
    (l ++ [x]).find? q = some x := by
  rw [List.find?_append, hl, List.find?_cons_of_pos _ hx]
  rfl

theorem applyOverrideTarget_key (u env2 : String) (t : LDTarget) (o : StatsigOverride) :
    ((applyOverrideTarget t o).unitID == u &&
        (applyOverrideTarget t o).environment == some env2) =
      (o.unitID == u && o.environment == some env2) := by
  rw [applyOverrideTarget_unitID, applyOverrideTarget_environment]

theorem overrideTargetStep_find?Aux (flagKey env : String) (args : Args)
    (u : String) (acc : List StatsigOverride × List TransformError) (t : LDTarget) :
    (overrideTargetStep flagKey env args acc t).1.find?
        (fun o => o.unitID == u && o.environment == some (envMapped args env)) =
      overrideAccStep args (envMapped args env) u
        (acc.1.find? (fun o => o.unitID == u && o.environment == some (envMapped args env))) t := by
  simp only [overrideTargetStep, overrideAccStep, resolvedUnitID]
  by_cases hv : t.values.isEmpty
  · rw [if_pos hv, if_pos hv]
  · rw [if_neg hv, if_neg hv]
    by_cases hf : jsFalsyOptStr (if (t.contextKind.getD "user") == "user" then
        some "userID" else recordGet args.contextKindToUnitIDMapping (t.contextKind.getD "user")) = true
    · rw [if_pos hf, if_pos hf]
    · rw [if_neg hf, if_neg hf]
      cases huid : (if (t.contextKind.getD "user") == "user" then
          some "userID" else recordGet args.contextKindToUnitIDMapping (t.contextKind.getD "user")) with
      | none => exact absurd (by rw [huid]; rfl) hf
      | some u2 =>
        dsimp only
        by_cases heq : (u2 == u) = true
        · have hequ : u2 = u := eq_of_beq heq
          subst hequ
          rw [if_pos (by simp)]
          cases hidx : acc.1.findIdx? (fun o =>
              o.unitID == u2 && o.environment == some (envMapped args env)) with
          | some i =>
            dsimp only
            have h3 := listModify_find?_of_findIdx?
              (fun o => o.unitID == u2 && o.environment == some (envMapped args env))
              (applyOverrideTarget t)
              (fun o => by exact applyOverrideTarget_key u2 (envMapped args env) t o)
              acc.1 0 i hidx
            rw [Nat.sub_zero] at h3
            obtain ⟨o, ho⟩ := find?_isSome_of_findIdx? _ acc.1 0 i hidx
            rw [h3, ho]
            rfl
          | none =>
            dsimp only
            have hnone := find?_eq_none_of_findIdx?_none _ acc.1 hidx
            rw [find?_append_some _ acc.1 _ hnone (by
              rw [applyOverrideTarget_unitID, applyOverrideTarget_environment]
              simp)]
            rw [hnone]
            rfl
        · rw [if_neg heq]
          cases hidx : acc.1.findIdx? (fun o =>
              o.unitID == u2 && o.environment == some (envMapped args env)) with
          | some i =>
            dsimp only
            have h3 := listModify_find?_other
              (fun o => o.unitID == u2 && o.environment == some (envMapped args env))
              (fun o => o.unitID == u && o.environment == some (envMapped args env))
              (applyOverrideTarget t)
              (fun o => by exact applyOverrideTarget_key u (envMapped args env) t o)
              (fun o hpo => by
                show (o.unitID == u && o.environment == some (envMapped args env)) = false
                have hpo2 : (o.unitID == u2) = true ∧
                    (o.environment == some (envMapped args env)) = true := by
                  rw [← Bool.and_eq_true]
                  exact hpo
                have h4 : o.unitID = u2 := eq_of_beq hpo2.1
                rw [h4]
                simp [heq])
              acc.1 0 i hidx
            rw [Nat.sub_zero] at h3
            exact h3
          | none =>
            dsimp only
            rw [find?_append_of_neg _ acc.1 _ (by
              rw [applyOverrideTarget_unitID, applyOverrideTarget_environment]
              simp [heq])]

theorem overrideTargetStep_findOverride (flagKey env : String) (args : Args)
    (u : String) (acc : List StatsigOverride × List TransformError) (t : LDTarget) :
    findOverride (overrideTargetStep flagKey env args acc t).1 u (envMapped args env) =
      overrideAccStep args (envMapped args env) u
        (findOverride acc.1 u (envMapped args env)) t :=
  overrideTargetStep_find?Aux flagKey env args u acc t

theorem overrideFold_findOverride (flagKey env : String) (args : Args) (u : String) :
    ∀ (ts : List LDTarget) (acc : List StatsigOverride × List TransformError),
      findOverride (ts.foldl (overrideTargetStep flagKey env args) acc).1 u
          (envMapped args env) =
        ts.foldl (overrideAccStep args (envMapped args env) u)
          (findOverride acc.1 u (envMapped args env)) := by
  intro ts
  induction ts with
  | nil => intro acc; rfl
  | cons a rest ih =>
    intro acc
    rw [List.foldl_cons, List.foldl_cons, ih,
      overrideTargetStep_findOverride flagKey env args u acc a]

theorem overrideTargetStep_errors_mono (flagKey env : String) (args : Args)
    (acc : List StatsigOverride × List TransformError) (t : LDTarget)
    (e : TransformError) (he : e ∈ acc.2) :
    e ∈ (overrideTargetStep flagKey env args acc t).2 := by
  simp only [overrideTargetStep]
  repeat' split
  all_goals first
    | exact he
    | exact List.mem_append.mpr (Or.inl he)

theorem overrideFold_errors_mono (flagKey env : String) (args : Args)
    (e : TransformError) :
    ∀ (ts : List LDTarget) (acc : List StatsigOverride × List TransformError),
      e ∈ acc.2 → e ∈ (ts.foldl (overrideTargetStep flagKey env args) acc).2 := by
  intro ts
  induction ts with
  | nil => intro acc he; exact he
  | cons a rest ih =>
    intro acc he
    rw [List.foldl_cons]
    exact ih _ (overrideTargetStep_errors_mono flagKey env args acc a e he)

theorem overrideFold_error_mem (flagKey env : String) (args : Args) :
    ∀ (ts : List LDTarget) (acc : List StatsigOverride × List TransformError)
      (t : LDTarget), t ∈ ts → t.values.isEmpty = false →
      resolvedUnitID args t = none →
      TransformError.unit_id_not_mapped flagKey (t.contextKind.getD "user") ∈
        (ts.foldl (overrideTargetStep flagKey env args) acc).2 := by
  intro ts
  induction ts with
  | nil => intro acc t ht; cases ht
  | cons a rest ih =>
    intro acc t ht hv hr
    rcases List.mem_cons.mp ht with rfl | ht2
    · rw [List.foldl_cons]
      apply overrideFold_errors_mono
      simp only [overrideTargetStep]
      rw [hv]
      simp only [Bool.false_eq_true, if_false]
      simp only [resolvedUnitID] at hr
      by_cases hf : jsFalsyOptStr (if (t.contextKind.getD "user") == "user" then
          some "userID" else recordGet args.contextKindToUnitIDMapping
            (t.contextKind.getD "user")) = true
      · rw [if_pos hf]
        exact List.mem_append.mpr (Or.inr (List.mem_singleton.mpr rfl))
      · exfalso
        rw [if_neg hf] at hr
        exact hf (by rw [hr]; rfl)
    · rw [List.foldl_cons]
      exact ih _ t ht2 hv hr

/-- The (unitID, environment) keys of an override list. -/
def overrideKeys (l : List StatsigOverride) : List (String × Option String) :=
  l.map (fun o => (o.unitID, o.environment))

theorem listModify_map (g : α → β) (f : α → α) (hg : ∀ a, g (f a) = g a) :
    ∀ (l : List α) (i : Nat), (listModify l i f).map g = l.map g := by
  intro l
  induction l with
  | nil => intro i; rfl
  | cons a t ih =>
    intro i
    cases i with
    | zero =>
      show g (f a) :: t.map g = g a :: t.map g
      rw [hg]
    | succ j =>
      show g a :: (listModify t j f).map g = g a :: t.map g
      rw [ih]

theorem overrideTargetStep_keys_nodup (flagKey env : String) (args : Args)
    (acc : List StatsigOverride × List TransformError) (t : LDTarget)
    (h : (overrideKeys acc.1).Nodup) :
    (overrideKeys (overrideTargetStep flagKey env args acc t).1).Nodup := by
  simp only [overrideTargetStep]
  by_cases hv : t.values.isEmpty
  · rw [if_pos hv]; exact h
  · rw [if_neg hv]
    by_cases hf : jsFalsyOptStr (if (t.contextKind.getD "user") == "user" then
        some "userID" else recordGet args.contextKindToUnitIDMapping
          (t.contextKind.getD "user")) = true
    · rw [if_pos hf]; exact h
    · rw [if_neg hf]
      cases huid : (if (t.contextKind.getD "user") == "user" then
          some "userID" else recordGet args.contextKindToUnitIDMapping
            (t.contextKind.getD "user")) with
      | none => exact h
      | some u2 =>
        dsimp only
        cases hidx : acc.1.findIdx? (fun o =>
            o.unitID == u2 && o.environment == some (envMapped args env)) with
        | some i =>
          dsimp only
          rw [overrideKeys, listModify_map _ _ (fun o => by
            rw [applyOverrideTarget_unitID, applyOverrideTarget_environment])]
          exact h
        | none =>
          dsimp only
          rw [overrideKeys, List.map_append]
          rw [List.nodup_append]
          refine ⟨h, List.nodup_singleton _, ?_⟩
          intro a ha hk
          rw [List.map_singleton, List.mem_singleton] at hk
          obtain ⟨o, ho, hko⟩ := List.mem_map.mp ha
          rw [List.findIdx?_eq_none_iff] at hidx
          have hfalse := hidx o ho
          rw [hk] at hko
          rw [applyOverrideTarget_unitID, applyOverrideTarget_environment] at hko
          have h1 : o.unitID = u2 := congrArg Prod.fst hko
          have h2 : o.environment = some (envMapped args env) := congrArg Prod.snd hko
          rw [h1, h2] at hfalse
          simp at hfalse

theorem overrideFold_keys_nodup (flagKey env : String) (args : Args) :
    ∀ (ts : List LDTarget) (acc : List StatsigOverride × List TransformError),
      (overrideKeys acc.1).Nodup →
      (overrideKeys (ts.foldl (overrideTargetStep flagKey env args) acc).1).Nodup := by
  intro ts
  induction ts with
  | nil => intro acc h; exact h
  | cons a rest ih =>
    intro acc h
    rw [List.foldl_cons]
    exact ih _ (overrideTargetStep_keys_nodup flagKey env args acc a h)

/-- C7 (amended): the override-building block of transformFlagToGate only
runs when the PLAIN targets list of the environment is non-empty; in that
case it folds targets followed by contextTargets, accumulating entries that
resolve to the same (unit id, environment) key into the single override at
that key (per-key fold formula), reporting unit_id_not_mapped for each
non-empty entry whose context kind has no unit-id mapping, and never
creating two overrides with the same key.  When the plain targets list is
empty or missing the whole block is skipped, so contextTargets entries
contribute nothing - not even their unmapped-context-kind errors. -/
theorem c7_override_targets (flagKey env : String)
    (environmentData : LDFlagEnvironment) (args : Args)
    (overrides₀ : List StatsigOverride) :
    ((environmentData.targets.getD []).isEmpty = true →
      buildOverridesForEnv flagKey env environmentData args overrides₀ =
        (overrides₀, [])) ∧
    ((environmentData.targets.getD []).isEmpty = false →
      (∀ u, findOverride
          (buildOverridesForEnv flagKey env environmentData args overrides₀).1 u
          (envMapped args env) =
        ((environmentData.targets.getD []) ++
            (environmentData.contextTargets.getD [])).foldl
          (overrideAccStep args (envMapped args env) u)
          (findOverride overrides₀ u (envMapped args env))) ∧
      (∀ t ∈ (environmentData.targets.getD []) ++
          (environmentData.contextTargets.getD []),
        t.values.isEmpty = false → resolvedUnitID args t = none →
        TransformError.unit_id_not_mapped flagKey (t.contextKind.getD "user") ∈
          (buildOverridesForEnv flagKey env environmentData args overrides₀).2) ∧
      ((overrideKeys overrides₀).Nodup →
        (overrideKeys
          (buildOverridesForEnv flagKey env environmentData args
            overrides₀).1).Nodup)) := by
  constructor
  · intro he
    rw [buildOverridesForEnv, if_pos he]
  · intro he
    have hne : ¬((environmentData.targets.getD []).isEmpty = true) := by
      rw [he]
      exact Bool.false_ne_true
    refine ⟨?_, ?_, ?_⟩
    · intro u
      rw [buildOverridesForEnv, if_neg hne]
      exact overrideFold_findOverride flagKey env args u _ (overrides₀, [])
    · intro t ht hv hr
      rw [buildOverridesForEnv, if_neg hne]
      exact overrideFold_error_mem flagKey env args _ (overrides₀, []) t ht hv hr
    · intro hn
      rw [buildOverridesForEnv, if_neg hne]
      exact overrideFold_keys_nodup flagKey env args _ (overrides₀, []) hn

def c7Target1 : LDTarget := { values := ["u1"], variation := 0, contextKind := none }

def c7Target2 : LDTarget := { values := ["u2"], variation := 1, contextKind := some "user" }

def c7Target3 : LDTarget := { values := ["d1"], variation := 0, contextKind := some "device" }

def c7Args : Args :=
  { contextKindToUnitIDMapping := [], contextCustomAttributeMapping := [],
    environmentNameMapping := [], onlyEnvironments := none }

def c7EnvData : LDFlagEnvironment :=
  { «on» := true, targets := some [c7Target1],
    contextTargets := some [c7Target2, c7Target3],
    offVariation := some 1, rules := none, fallthrough := none,
    prerequisites := none }

theorem c7_override_targets_witness :
    (c7EnvData.targets.getD []).isEmpty = false ∧
    findOverride (buildOverridesForEnv "f" "production" c7EnvData c7Args []).1
        "userID" (envMapped c7Args "production") =
      some { environment := some "production", unitID := "userID",
             passingIDs := ["u1"], failingIDs := ["u2"] } ∧
    TransformError.unit_id_not_mapped "f" "device" ∈
      (buildOverridesForEnv "f" "production" c7EnvData c7Args []).2 ∧
    (overrideKeys (buildOverridesForEnv "f" "production" c7EnvData c7Args
      []).1).Nodup := by
  have h := (c7_override_targets "f" "production" c7EnvData c7Args []).2 rfl
  refine ⟨rfl, ?_, ?_, ?_⟩
  · rw [h.1 "userID"]
    rfl
  · exact h.2.1 c7Target3 (by simp [c7EnvData]) rfl rfl
  · exact h.2.2 List.nodup_nil

def c7CexTarget : LDTarget :=
  { values := ["u9"], variation := 0, contextKind := some "device" }

def c7CexEnvData : LDFlagEnvironment :=
  { «on» := true, targets := some [], contextTargets := some [c7CexTarget],
    offVariation := some 1, rules := none, fallthrough := none,
    prerequisites := none }

/-- C7 counterexample to the literal claim: with an empty plain targets
list, a context-target entry with a non-empty id list and an unmapped
context kind produces neither an override nor a unit_id_not_mapped error,
because the whole override block is guarded by the plain targets list being
non-empty. -/
theorem c7_counterexample :
    c7CexEnvData.contextTargets = some [c7CexTarget] ∧
    c7CexTarget.values.isEmpty = false ∧
    resolvedUnitID c7Args c7CexTarget = none ∧
    buildOverridesForEnv "f" "production" c7CexEnvData c7Args [] = ([], []) :=
  ⟨rfl, rfl, rfl, rfl⟩

-- ---------------------------------------------------------------------------
-- Error aggregation in transformFlagToGate and transformSegment
-- ---------------------------------------------------------------------------

theorem translateGateRulesLoop_error_mem (flagKey env : String) (args : Args)
    (percentageOverride : Option ℚ) (i : Nat) (rule : LDRule)
    (es : List TransformError) (e : TransformError) :
    ∀ (pairs : List (Nat × LDRule)) (res : List StatsigRule × List TransformError),
      translateGateRulesLoop flagKey env args percentageOverride pairs = some res →
      (i, rule) ∈ pairs →
      translateLaunchDarklyRule flagKey env rule i percentageOverride args = .errs es →
      e ∈ es → e ∈ res.2 := by
  intro pairs
  induction pairs with
  | nil => intro res hres hmem; cases hmem
  | cons a rest ih =>
    intro res hres hmem herr he
    rw [translateGateRulesLoop] at hres
    rcases List.mem_cons.mp hmem with rfl | hmem2
    · rw [herr] at hres
      cases hloop : translateGateRulesLoop flagKey env args percentageOverride rest with
      | none => rw [hloop] at hres; cases hres
      | some p =>
        rw [hloop] at hres
        injection hres with h1
        rw [← h1]
        exact List.mem_append.mpr (Or.inl he)
    · cases htr : translateLaunchDarklyRule flagKey env a.2 a.1 percentageOverride args with
      | crash => rw [htr] at hres; cases hres
      | ok r =>
        rw [htr] at hres
        cases hloop : translateGateRulesLoop flagKey env args percentageOverride rest with
        | none => rw [hloop] at hres; cases hres
        | some p =>
          rw [hloop] at hres
          injection hres with h1
          rw [← h1]
          exact ih p hloop hmem2 herr he
      | errs e2 =>
        rw [htr] at hres
        cases hloop : translateGateRulesLoop flagKey env args percentageOverride rest with
        | none => rw [hloop] at hres; cases hres
        | some p =>
          rw [hloop] at hres
          injection hres with h1
          rw [← h1]
          exact List.mem_append.mpr (Or.inr (ih p hloop hmem2 herr he))

theorem gateFold_errors_mono (flag : LaunchDarklyFlag)
    (flagsByKey : List (String × LaunchDarklyFlag)) (args : Args)
    (e : TransformError) :
    ∀ (l : List (String × LDFlagEnvironment)) (acc₀ acc : GateAcc),
      l.foldlM (gateEnvStep flag flagsByKey args) acc₀ = some acc →
      e ∈ acc₀.errors → e ∈ acc.errors := by
  intro l
  induction l with
  | nil =>
    intro acc₀ acc h he
    injection h with h1
    rw [← h1]
    exact he
  | cons a rest ih =>
    intro acc₀ acc h he
    rw [List.foldlM_cons] at h
    cases hstep : gateEnvStep flag flagsByKey args acc₀ a with
    | none => rw [hstep] at h; cases h
    | some acc₁ =>
      rw [hstep] at h
      apply ih acc₁ acc h
      rw [gateEnvStep] at hstep
      cases hc : gateEnvContribution flag flagsByKey args acc₀.overrides a with
      | none => rw [hc] at hstep; cases hstep
      | some c =>
        rw [hc] at hstep
        injection hstep with h1
        rw [← h1]
        exact List.mem_append.mpr (Or.inl he)

theorem gateEnvContribution_rule_error (flag : LaunchDarklyFlag)
    (flagsByKey : List (String × LaunchDarklyFlag)) (args : Args)
    (overrides₀ : List StatsigOverride) (entry : String × LDFlagEnvironment)
    (c : List StatsigOverride × List StatsigRule × List TransformError)
    (ov i : Nat) (rule : LDRule) (es : List TransformError) (e : TransformError)
    (hc : gateEnvContribution flag flagsByKey args overrides₀ entry = some c)
    (hskip : (match args.onlyEnvironments with
      | some only => !only.contains entry.1
      | none => false) = false)
    (hov : entry.2.offVariation = some ov)
    (hrule : (i, rule) ∈ (entry.2.rules.getD []).enum)
    (herr : translateLaunchDarklyRule flag.key entry.1 rule i
      (gatePercentageOverride entry.2) args = .errs es)
    (he : e ∈ es) : e ∈ c.2.2 := by
  simp only [gateEnvContribution] at hc
  rw [hskip] at hc
  simp only [Bool.false_eq_true, if_false] at hc
  rw [hov] at hc
  dsimp only at hc
  cases hpre : transformPrerequisitesRule flag.key (flag.variations.get? ov)
      entry.2 true flagsByKey entry.1 args with
  | crash => rw [hpre] at hc; cases hc
  | ok rs =>
    rw [hpre] at hc
    dsimp only at hc
    cases hloop : translateGateRulesLoop flag.key entry.1 args
        (gatePercentageOverride entry.2) (entry.2.rules.getD []).enum with
    | none => rw [hloop] at hc; cases hc
    | some rAndE =>
      rw [hloop] at hc
      cases hft : transformFallthroughRule flag.key entry.1 entry.2 args with
      | crash => rw [hft] at hc; cases hc
      | ok fr =>
        rw [hft] at hc
        dsimp only at hc
        injection hc with h1
        rw [← h1]
        have := translateGateRulesLoop_error_mem flag.key entry.1 args
          (gatePercentageOverride entry.2) i rule es e _ rAndE hloop hrule herr he
        exact List.mem_append.mpr (Or.inl (List.mem_append.mpr (Or.inr this)))
      | errs fe =>
        rw [hft] at hc
        dsimp only at hc
        injection hc with h1
        rw [← h1]
        have := translateGateRulesLoop_error_mem flag.key entry.1 args
          (gatePercentageOverride entry.2) i rule es e _ rAndE hloop hrule herr he
        exact List.mem_append.mpr (Or.inl (List.mem_append.mpr (Or.inr this)))
  | errs pe =>
    rw [hpre] at hc
    dsimp only at hc
    cases hloop : translateGateRulesLoop flag.key entry.1 args
        (gatePercentageOverride entry.2) (entry.2.rules.getD []).enum with
    | none => rw [hloop] at hc; cases hc
    | some rAndE =>
      rw [hloop] at hc
      cases hft : transformFallthroughRule flag.key entry.1 entry.2 args with
      | crash => rw [hft] at hc; cases hc
      | ok fr =>
        rw [hft] at hc
        dsimp only at hc
        injection hc with h1
        rw [← h1]
        have := translateGateRulesLoop_error_mem flag.key entry.1 args
          (gatePercentageOverride entry.2) i rule es e _ rAndE hloop hrule herr he
        exact List.mem_append.mpr (Or.inl (List.mem_append.mpr (Or.inr this)))
      | errs fe =>
        rw [hft] at hc
        dsimp only at hc
        injection hc with h1
        rw [← h1]
        have := translateGateRulesLoop_error_mem flag.key entry.1 args
          (gatePercentageOverride entry.2) i rule es e _ rAndE hloop hrule herr he
        exact List.mem_append.mpr (Or.inl (List.mem_append.mpr (Or.inr this)))

theorem gateFold_rule_error_mem (flag : LaunchDarklyFlag)
    (flagsByKey : List (String × LaunchDarklyFlag)) (args : Args)
    (entry : String × LDFlagEnvironment) (ov i : Nat) (rule : LDRule)
    (es : List TransformError) (e : TransformError)
    (hskip : (match args.onlyEnvironments with
      | some only => !only.contains entry.1
      | none => false) = false)
    (hov : entry.2.offVariation = some ov)
    (hrule : (i, rule) ∈ (entry.2.rules.getD []).enum)
    (herr : translateLaunchDarklyRule flag.key entry.1 rule i
      (gatePercentageOverride entry.2) args = .errs es)
    (he : e ∈ es) :
    ∀ (l : List (String × LDFlagEnvironment)) (acc₀ acc : GateAcc),
      l.foldlM (gateEnvStep flag flagsByKey args) acc₀ = some acc →
      entry ∈ l → e ∈ acc.errors := by
  intro l
  induction l with
  | nil => intro acc₀ acc h hmem; cases hmem
  | cons a rest ih =>
    intro acc₀ acc h hmem
    rw [List.foldlM_cons] at h
    cases hstep : gateEnvStep flag flagsByKey args acc₀ a with
    | none => rw [hstep] at h; cases h
    | some acc₁ =>
      rw [hstep] at h
      rcases List.mem_cons.mp hmem with rfl | hmem2
      · apply gateFold_errors_mono flag flagsByKey args e rest acc₁ acc h
        rw [gateEnvStep] at hstep
        cases hc : gateEnvContribution flag flagsByKey args acc₀.overrides entry with
        | none => rw [hc] at hstep; cases hstep
        | some c =>
          rw [hc] at hstep
          injection hstep with h1
          rw [← h1]
          refine List.mem_append.mpr (Or.inr ?_)
          exact gateEnvContribution_rule_error flag flagsByKey args acc₀.overrides
            entry c ov i rule es e hc hskip hov hrule herr he
      · exact ih acc₁ acc h hmem2

/-- C4 (amended): for FLAGS the claim holds: every rule-translation error of
every selected environment (with a non-null off variation) aggregates into
the error list of transformFlagToGate, whose outcome is then the full error
list and never a partially translated gate.  For SEGMENTS it does not hold:
transformSegment only ever reports the two segment-level errors
(unsupported_segment_type and segment_has_exclusions); a targeting rule
whose translation fails is silently dropped from the emitted segment and
its errors are discarded. -/
theorem c4_error_aggregation (args : Args) :
    (∀ (flag : LaunchDarklyFlag) (flagsByKey : List (String × LaunchDarklyFlag))
      (entry : String × LDFlagEnvironment) (ov i : Nat) (rule : LDRule)
      (es : List TransformError) (e : TransformError) (acc : GateAcc),
      entry ∈ flag.environments.getD [] →
      (match args.onlyEnvironments with
        | some only => !only.contains entry.1
        | none => false) = false →
      entry.2.offVariation = some ov →
      (i, rule) ∈ (entry.2.rules.getD []).enum →
      translateLaunchDarklyRule flag.key entry.1 rule i
        (gatePercentageOverride entry.2) args = .errs es →
      e ∈ es →
      (flag.environments.getD []).foldlM (gateEnvStep flag flagsByKey args)
        { overrides := [], rules := [], errors := [] } = some acc →
      e ∈ acc.errors ∧
        transformFlagToGate flag flagsByKey args = .errs acc.errors) ∧
    (∀ (ldSegmentByEnv : List (String × LaunchDarklySegment))
      (E : List TransformError),
      transformSegment ldSegmentByEnv args = .errs E →
      ∃ k, E = [.unsupported_segment_type k] ∨ E = [.segment_has_exclusions k]) := by
  constructor
  · intro flag flagsByKey entry ov i rule es e acc hmem hskip hov hrule herr he hfold
    have hin : e ∈ acc.errors :=
      gateFold_rule_error_mem flag flagsByKey args entry ov i rule es e
        hskip hov hrule herr he _ _ acc hfold hmem
    refine ⟨hin, ?_⟩
    have hne : ¬(acc.errors.isEmpty = true) := by
      intro hemp
      rw [List.isEmpty_iff] at hemp
      rw [hemp] at hin
      cases hin
    rw [transformFlagToGate, hfold]
    dsimp only
    rw [if_neg hne]
  · intro ldSegmentByEnv E h
    cases ldSegmentByEnv with
    | nil => rw [transformSegment] at h; cases h
    | cons a rest =>
      rw [transformSegment] at h
      split at h
      · injection h with h1
        exact ⟨a.2.key, Or.inl h1.symm⟩
      · split at h
        · injection h with h1
          exact ⟨a.2.key, Or.inr h1.symm⟩
        · cases h

def c4Args : Args :=
  { contextKindToUnitIDMapping := [], contextCustomAttributeMapping := [],
    environmentNameMapping := [], onlyEnvironments := none }

def c4BadClause : LDClause :=
  { attr := "country", contextKind := none, op := "weirdop",
    values := [.str "x"], negate := false }

def c4BadRule : LDRule :=
  { description := some "bad", clauses := [c4BadClause],
    variation := some 0, rollout := none }

def c4Env : LDFlagEnvironment :=
  { «on» := true, targets := none, contextTargets := none,
    offVariation := some 1, rules := some [c4BadRule],
    fallthrough := some { variation := some 0, rollout := none },
    prerequisites := none }

def c4Flag : LaunchDarklyFlag :=
  { kind := "boolean", key := "f", name := "F", description := "",
    temporary := false, tags := [],
    variations := [{ name := "t", value := .bool true },
                   { name := "f", value := .bool false }],
    environments := some [("production", c4Env)] }

theorem c4_error_aggregation_witness :
    ∃ acc : GateAcc,
      (c4Flag.environments.getD []).foldlM (gateEnvStep c4Flag [] c4Args)
        { overrides := [], rules := [], errors := [] } = some acc ∧
      TransformError.unsupported_operator "f" "weirdop" ∈ acc.errors ∧
      transformFlagToGate c4Flag [] c4Args = .errs acc.errors := by
  refine ⟨_, rfl, ?_⟩
  have h := (c4_error_aggregation c4Args).1 c4Flag [] ("production", c4Env) 1 0
    c4BadRule [.unsupported_operator "f" "weirdop"]
    (.unsupported_operator "f" "weirdop") _
    (List.mem_singleton.mpr rfl) rfl rfl (List.mem_singleton.mpr rfl) rfl
    (List.mem_singleton.mpr rfl) rfl
  exact ⟨h.1, h.2⟩

def c4Segment : LaunchDarklySegment :=
  { key := "seg", name := "Seg", description := none, rules := [c4BadRule],
    deleted := false, included := none, excluded := none,
    includedContexts := none, excludedContexts := none, unbounded := false }

/-- C4 counterexample to the literal claim for segments: a segment whose
only targeting rule fails to translate (unsupported operator) is still
emitted as a StatsigSegment, with the failed rule silently dropped and its
error reported nowhere. -/
theorem c4_counterexample :
    translateLaunchDarklyRule "seg" "production" c4BadRule 0 (some 100) c4Args =
      .errs [.unsupported_operator "seg" "weirdop"] ∧
    transformSegment [("production", c4Segment)] c4Args =
      .ok { id := "seg", name := "Seg", description := none,
            type := "rule_based", rules := [] } :=
  ⟨rfl, rfl⟩

-- ---------------------------------------------------------------------------
-- Ordering and totality of the dependency sorter
-- ---------------------------------------------------------------------------

theorem topoSortGo_pairwise (getId : α → String) (lookup : String → Option α)
    (deps : String → List String)
    (hlg : ∀ cid c, lookup cid = some c → getId c = cid) :
    ∀ (fuel : Nat) (remaining : List String) (out : List α),
      topoSortGo lookup deps fuel remaining = some out →
      List.Pairwise (fun a b => getId b ∉ deps (getId a)) out := by
  intro fuel
  induction fuel with
  | zero =>
    intro remaining out h
    rw [topoSortGo] at h
    split at h
    · injection h with h1
      rw [← h1]
      exact List.Pairwise.nil
    · cases h
  | succ fuel ih =>
    intro remaining out h
    rw [topoSortGo] at h
    split at h
    · injection h with h1
      rw [← h1]
      exact List.Pairwise.nil
    · split at h
      · cases h
      · rename_i cid hf
        split at h
        · cases h
        · rename_i config hl
          cases hr : topoSortGo lookup deps fuel (remaining.erase cid) with
          | none => rw [hr] at h; cases h
          | some rest =>
            rw [hr] at h
            cases h
            constructor
            · intro b hb
              have hcfg : getId config = cid := hlg cid config hl
              rw [hcfg]
              have hperm := topoSortGo_perm lookup deps fuel (remaining.erase cid) rest hr
              have hbmem : b ∈ (remaining.erase cid).filterMap lookup :=
                hperm.mem_iff.mp hb
              obtain ⟨d, hd, hdl⟩ := List.mem_filterMap.mp hbmem
              have hgb : getId b = d := hlg d b hdl
              have hpred := List.find?_some hf
              rw [Bool.and_eq_true] at hpred
              have hany := hpred.1
              rw [Bool.not_eq_true'] at hany
              rw [List.any_eq_false] at hany
              intro hmem
              have hcontains := hany (getId b) hmem
              have hin : getId b ∈ remaining := by
                rw [hgb]
                exact List.mem_of_mem_erase hd
              exact absurd hin (by simpa using hcontains)
            · exact ih _ rest hr

theorem topoSortGo_total (lookup : String → Option α) (deps : String → List String)
    (S₀ : List String)
    (hacyc : ∀ x, ¬ Relation.TransGen
      (fun a b => a ∈ deps b ∧ a ∈ S₀ ∧ b ∈ S₀) x x) :
    ∀ (n : Nat) (remaining : List String), remaining.length = n →
      (∀ cid ∈ remaining, cid ∈ S₀) →
      (∀ cid ∈ remaining, (lookup cid).isSome) →
      ∃ out, topoSortGo lookup deps n remaining = some out := by
  intro n
  induction n with
  | zero =>
    intro remaining hlen hsub hl
    have h0 : remaining = [] := List.length_eq_zero.mp hlen
    rw [topoSortGo, h0]
    exact ⟨[], rfl⟩
  | succ n ih =>
    intro remaining hlen hsub hl
    have hne : remaining ≠ [] := by
      intro h0
      rw [h0] at hlen
      cases hlen
    haveI : Fintype {x // x ∈ remaining} := List.Subtype.fintype remaining
    have hirr : ∀ a : {x // x ∈ remaining}, ¬ Relation.TransGen
        (fun a b : {x // x ∈ remaining} => (a : String) ∈ deps (b : String)) a a := by
      intro a ha
      apply hacyc (a : String)
      exact Relation.TransGen.lift (fun x : {x // x ∈ remaining} => (x : String))
        (fun x y hxy => ⟨hxy, hsub _ x.2, hsub _ y.2⟩) ha
    letI : IsIrrefl {x // x ∈ remaining} (Relation.TransGen
        (fun a b : {x // x ∈ remaining} => (a : String) ∈ deps (b : String))) := ⟨hirr⟩
    have hwf₁ : WellFounded (Relation.TransGen
        (fun a b : {x // x ∈ remaining} => (a : String) ∈ deps (b : String))) :=
      Finite.wellFounded_of_trans_of_irrefl _
    have hwf : WellFounded
        (fun a b : {x // x ∈ remaining} => (a : String) ∈ deps (b : String)) :=
      Subrelation.wf (fun h => Relation.TransGen.single h) hwf₁
    obtain ⟨x0, hx0⟩ := List.exists_mem_of_ne_nil remaining hne
    obtain ⟨m, _, hmin⟩ := hwf.has_min Set.univ ⟨⟨x0, hx0⟩, trivial⟩
    have hpredm : (!((deps (m : String)).any (fun dep => remaining.contains dep)) &&
        (lookup (m : String)).isSome) = true := by
      rw [Bool.and_eq_true]
      constructor
      · rw [Bool.not_eq_true', List.any_eq_false]
        intro x hx
        have hnot : x ∉ remaining := fun hxm => hmin ⟨x, hxm⟩ trivial hx
        simpa using hnot
      · exact hl _ m.2
    have hfind : ∃ cid, topoFindEligible lookup deps remaining = some cid := by
      cases hfe : topoFindEligible lookup deps remaining with
      | some cid => exact ⟨cid, rfl⟩
      | none =>
        rw [topoFindEligible, List.find?_eq_none] at hfe
        exact absurd hpredm (hfe (m : String) m.2)
    obtain ⟨cid, hfe⟩ := hfind
    have hpredc := List.find?_some hfe
    rw [Bool.and_eq_true] at hpredc
    obtain ⟨config, hlc⟩ := Option.isSome_iff_exists.mp hpredc.2
    have hcm : cid ∈ remaining := List.mem_of_find?_eq_some hfe
    have hlen2 : (remaining.erase cid).length = n := by
      rw [List.length_erase_of_mem hcm, hlen]
      rfl
    obtain ⟨out, hout⟩ := ih (remaining.erase cid) hlen2
      (fun c hc => hsub c (List.mem_of_mem_erase hc))
      (fun c hc => hl c (List.mem_of_mem_erase hc))
    refine ⟨config :: out, ?_⟩
    rw [topoSortGo]
    rw [if_neg (by simp [hne])]
    rw [hfe]
    dsimp only
    rw [hlc]
    dsimp only
    rw [hout]
    rfl

theorem topoSortGo_stuck (lookup : String → Option α) (deps : String → List String)
    (Cpred : String → Prop) (x₀ : String) (hx : Cpred x₀)
    (hprev : ∀ y, Cpred y → ∃ c, Cpred c ∧ c ∈ deps y) :
    ∀ (fuel : Nat) (remaining : List String),
      (∀ y, Cpred y → y ∈ remaining) →
      topoSortGo lookup deps fuel remaining = none := by
  intro fuel
  induction fuel with
  | zero =>
    intro remaining hC
    have hnem : ¬(remaining.isEmpty = true) := by
      intro hemp
      rw [List.isEmpty_iff] at hemp
      have := hC x₀ hx
      rw [hemp] at this
      cases this
    rw [topoSortGo, if_neg hnem]
  | succ fuel ih =>
    intro remaining hC
    have hnem : ¬(remaining.isEmpty = true) := by
      intro hemp
      rw [List.isEmpty_iff] at hemp
      have := hC x₀ hx
      rw [hemp] at this
      cases this
    rw [topoSortGo, if_neg hnem]
    cases hfe : topoFindEligible lookup deps remaining with
    | none => rfl
    | some cid =>
      dsimp only
      have hpred := List.find?_some hfe
      rw [Bool.and_eq_true] at hpred
      have hnC : ¬ Cpred cid := by
        intro hcC
        obtain ⟨c, hcC2, hcdep⟩ := hprev cid hcC
        have hcrem : c ∈ remaining := hC c hcC2
        have hany := hpred.1
        rw [Bool.not_eq_true', List.any_eq_false] at hany
        have := hany c hcdep
        exact absurd hcrem (by simpa using this)
      cases hl : lookup cid with
      | none => rfl
      | some config =>
        dsimp only
        rw [ih (remaining.erase cid) ?_]
        · rfl
        · intro y hy
          have hyrem : y ∈ remaining := hC y hy
          have hyne : y ≠ cid := by
            intro h0
            rw [h0] at hy
            exact hnC hy
          exact (List.mem_erase_of_ne hyne).mpr hyrem

theorem jsSetOfList_go_nodup (l : List String) :
    ∀ (acc : List String), (∀ a ∈ l, a ∉ acc) → l.Nodup →
      l.foldl (fun acc a => if acc.contains a then acc else acc ++ [a]) acc =
        acc ++ l := by
  induction l with
  | nil => intro acc _ _; simp
  | cons a t ih =>
    intro acc hdis hnd
    rw [List.foldl_cons]
    have hac : acc.contains a = false := by
      have := hdis a (List.mem_cons_self _ _)
      simpa using this
    simp only [hac, Bool.false_eq_true, if_false]
    rw [ih (acc ++ [a]) ?_ (List.nodup_cons.mp hnd).2]
    · simp
    · intro b hb hbmem
      rcases List.mem_append.mp hbmem with hbmem | hbmem
      · exact hdis b (List.mem_cons_of_mem _ hb) hbmem
      · rw [List.mem_singleton] at hbmem
        rw [hbmem] at hb
        exact (List.nodup_cons.mp hnd).1 hb

theorem jsSetOfList_eq_self (l : List String) (h : l.Nodup) : jsSetOfList l = l := by
  rw [jsSetOfList, jsSetOfList_go_nodup l [] (by simp) h]
  rfl

theorem configMapGet_self (getId : α → String) (configs : List α)
    (hnodup : (configs.map getId).Nodup) (c : α) (hc : c ∈ configs) :
    configMapGet getId configs (getId c) = some c := by
  obtain ⟨c₂, h2⟩ := configMapGet_exists_of_mem getId configs c hc
  have hid : getId c₂ = getId c := configMapGet_getId _ _ _ _ h2
  have hmem2 : c₂ ∈ configs := configMapGet_mem _ _ _ _ h2
  have heq : c₂ = c := List.inj_on_of_nodup_map hnodup hmem2 hc hid
  rw [h2, heq]

theorem filterMap_eq_self_of_some (f : α → Option α) :
    ∀ (l : List α), (∀ c ∈ l, f c = some c) → l.filterMap f = l := by
  intro l
  induction l with
  | nil => intro _; rfl
  | cons a t ih =>
    intro h
    rw [List.filterMap_cons, h a (List.mem_cons_self _ _),
      ih (fun c hc => h c (List.mem_cons_of_mem _ hc))]

/-- C3: when the reference graph of the configurations (passes/fails gate or
passes/fails segment conditions naming identifiers of the set, as recorded
by dependentsOf) is acyclic, sortConfigsFromDependentToIndependent returns a
permutation of the input in which no later configuration is a recorded
dependent of an earlier one, i.e. every configuration precedes every
configuration it references; when the graph has a cycle it returns the
circular-dependency failure instead of looping, with no duplicate-freeness
assumption at all.  The permutation half assumes the identifier list is
duplicate-free, as ids are at both source call sites (they are the keys of
a Map in one and unique flag keys in the other). -/
theorem c3_dependency_sort (getId : α → String) (getRules : α → List StatsigRule)
    (configs : List α) (configType : String) :
    ((configs.map getId).Nodup →
      (∀ x, ¬ Relation.TransGen (fun a b =>
        a ∈ dependentsOf getId getRules (sortRefCondition configType) configs b ∧
        a ∈ configs.map getId ∧ b ∈ configs.map getId) x x) →
      ∃ out, sortConfigsFromDependentToIndependent getId getRules configs configType =
          some out ∧
        out.Perm configs ∧
        List.Pairwise (fun a b => getId b ∉
          dependentsOf getId getRules (sortRefCondition configType) configs
            (getId a)) out) ∧
    (∀ x₀, Relation.TransGen (fun a b =>
        a ∈ dependentsOf getId getRules (sortRefCondition configType) configs b ∧
        a ∈ configs.map getId ∧ b ∈ configs.map getId) x₀ x₀ →
      sortConfigsFromDependentToIndependent getId getRules configs configType =
        none) := by
  constructor
  · intro hnodup hacyc
    have hrem : jsSetOfList (configs.map getId) = configs.map getId :=
      jsSetOfList_eq_self _ hnodup
    obtain ⟨out, hout⟩ := topoSortGo_total (configMapGet getId configs)
      (dependentsOf getId getRules (sortRefCondition configType) configs)
      (configs.map getId) hacyc
      (jsSetOfList (configs.map getId)).length (jsSetOfList (configs.map getId)) rfl
      (fun cid hc => (jsSetOfList_mem _ _).mp hc)
      (fun cid hc => by
        have hc2 := (jsSetOfList_mem _ _).mp hc
        obtain ⟨c, hcmem, hcid⟩ := List.mem_map.mp hc2
        rw [← hcid, configMapGet_self getId configs hnodup c hcmem]
        rfl)
    refine ⟨out, ?_, ?_, ?_⟩
    · simp only [sortConfigsFromDependentToIndependent]
      exact hout
    · have hperm := topoSortGo_perm (configMapGet getId configs)
        (dependentsOf getId getRules (sortRefCondition configType) configs)
        _ _ _ hout
      rw [hrem, List.filterMap_map] at hperm
      have hfm : configs.filterMap (configMapGet getId configs ∘ getId) = configs :=
        filterMap_eq_self_of_some _ configs (fun c hc => by
          show configMapGet getId configs (getId c) = some c
          exact configMapGet_self getId configs hnodup c hc)
      rw [hfm] at hperm
      exact hperm
    · exact topoSortGo_pairwise getId (configMapGet getId configs)
        (dependentsOf getId getRules (sortRefCondition configType) configs)
        (fun cid c h => configMapGet_getId _ _ _ _ h) _ _ _ hout
  · intro x₀ hcyc
    simp only [sortConfigsFromDependentToIndependent]
    apply topoSortGo_stuck (configMapGet getId configs)
      (dependentsOf getId getRules (sortRefCondition configType) configs)
      (fun y => Relation.ReflTransGen (fun a b =>
          a ∈ dependentsOf getId getRules (sortRefCondition configType) configs b ∧
          a ∈ configs.map getId ∧ b ∈ configs.map getId) x₀ y ∧
        Relation.TransGen (fun a b =>
          a ∈ dependentsOf getId getRules (sortRefCondition configType) configs b ∧
          a ∈ configs.map getId ∧ b ∈ configs.map getId) y x₀)
      x₀ ⟨Relation.ReflTransGen.refl, hcyc⟩
    · rintro y ⟨hxy, hyx⟩
      rcases Relation.reflTransGen_iff_eq_or_transGen.mp hxy with heq | htg
      · subst heq
        obtain ⟨c, hrc, hcy⟩ := Relation.TransGen.tail'_iff.mp hyx
        exact ⟨c, ⟨hrc, Relation.TransGen.single hcy⟩, hcy.1⟩
      · obtain ⟨c, hrc, hcy⟩ := Relation.TransGen.tail'_iff.mp htg
        exact ⟨c, ⟨hrc, Relation.TransGen.head hcy hyx⟩, hcy.1⟩
    · rintro y ⟨_, hyx⟩
      obtain ⟨b, hyb, _⟩ := Relation.TransGen.head'_iff.mp hyx
      exact (jsSetOfList_mem _ _).mpr hyb.2.1

theorem transGen_irrefl_of_measure (R : β → β → Prop) (f : β → Nat)
    (h : ∀ a b, R a b → f a < f b) : ∀ x, ¬ Relation.TransGen R x x := by
  have key : ∀ a b, Relation.TransGen R a b → f a < f b := by
    intro a b hab
    induction hab with
    | single h1 => exact h _ _ h1
    | tail _ h2 ih => exact lt_trans ih (h _ _ h2)
  intro x hx
  exact lt_irrefl _ (key x x hx)

def c3RuleRef (target : String) : StatsigRule :=
  { name := "dep", passPercentage := some 100,
    conditions := [{ type := .passes_gate, targetValue := some (.str target) }],
    environments := none }

def c3GateA : StatsigGate := { id := "A", name := "A", rules := [] }

def c3GateB : StatsigGate := { id := "B", name := "B", rules := [c3RuleRef "A"] }

def c3GateC : StatsigGate := { id := "C", name := "C", rules := [c3RuleRef "B"] }

def c3GateX : StatsigGate := { id := "X", name := "X", rules := [c3RuleRef "Y"] }

def c3GateY : StatsigGate := { id := "Y", name := "Y", rules := [c3RuleRef "X"] }

theorem c3_dependency_sort_witness :
    (∃ out, sortConfigsFromDependentToIndependent (fun g : StatsigGate => g.id)
        (fun g => g.rules) [c3GateA, c3GateB, c3GateC] "gate" = some out ∧
      out.Perm [c3GateA, c3GateB, c3GateC] ∧
      List.Pairwise (fun a b => (fun g : StatsigGate => g.id) b ∉
        dependentsOf (fun g : StatsigGate => g.id) (fun g => g.rules)
          (sortRefCondition "gate") [c3GateA, c3GateB, c3GateC]
          ((fun g : StatsigGate => g.id) a)) out) ∧
    sortConfigsFromDependentToIndependent (fun g : StatsigGate => g.id)
        (fun g => g.rules) [c3GateA, c3GateB, c3GateC] "gate" =
      some [c3GateC, c3GateB, c3GateA] ∧
    sortConfigsFromDependentToIndependent (fun g : StatsigGate => g.id)
        (fun g => g.rules) [c3GateX, c3GateY] "gate" = none := by
  refine ⟨?_, rfl, ?_⟩
  · apply (c3_dependency_sort (fun g : StatsigGate => g.id) (fun g => g.rules)
      [c3GateA, c3GateB, c3GateC] "gate").1 (by decide)
    apply transGen_irrefl_of_measure _
      (fun s => if s = "C" then 0 else if s = "B" then 1 else 2)
    rintro a b ⟨h1, h2, h3⟩
    have h3b : b ∈ (["A", "B", "C"] : List String) := h3
    rcases List.mem_cons.mp h3b with rfl | h3b
    · have h1b : a ∈ (["B"] : List String) := h1
      rw [List.mem_singleton] at h1b
      subst h1b
      decide
    · rcases List.mem_cons.mp h3b with rfl | h3b
      · have h1b : a ∈ (["C"] : List String) := h1
        rw [List.mem_singleton] at h1b
        subst h1b
        decide
      · rcases List.mem_cons.mp h3b with rfl | h3b
        · have h1b : a ∈ ([] : List String) := h1
          cases h1b
        · cases h3b
  · apply (c3_dependency_sort (fun g : StatsigGate => g.id) (fun g => g.rules)
      [c3GateX, c3GateY] "gate").2 "X"
    have hXY : "X" ∈ dependentsOf (fun g : StatsigGate => g.id) (fun g => g.rules)
          (sortRefCondition "gate") [c3GateX, c3GateY] "Y" ∧
        "X" ∈ [c3GateX, c3GateY].map (fun g : StatsigGate => g.id) ∧
        "Y" ∈ [c3GateX, c3GateY].map (fun g : StatsigGate => g.id) :=
      ⟨by decide, by decide, by decide⟩
    have hYX : "Y" ∈ dependentsOf (fun g : StatsigGate => g.id) (fun g => g.rules)
          (sortRefCondition "gate") [c3GateX, c3GateY] "X" ∧
        "Y" ∈ [c3GateX, c3GateY].map (fun g : StatsigGate => g.id) ∧
        "X" ∈ [c3GateX, c3GateY].map (fun g : StatsigGate => g.id) :=
      ⟨by decide, by decide, by decide⟩
    exact Relation.TransGen.tail (Relation.TransGen.single hXY) hYX
